import Mathlib

/-!
Shallow embedding of the `chip8` repository (interpreter core in
`src/core` and assembler lexer in `src/assembler`), together with proofs
about the properties stated in its specification.

Conventions of the embedding:
* Machine integers (`u8`, `u16`, `usize`) are modelled as `Nat`.
  Arithmetic performed by the source at a fixed width is followed by an
  explicit `% 256` / `% 65536` exactly where the source's type would
  truncate (wrapping semantics); shifts and masks use `Nat` bitwise
  operations, which agree with the fixed-width ones on in-range values.
* Rust `Result` values are modelled as `Except Chip8Error`.
* A Rust panic (out-of-bounds slice index) is modelled as `Option.none`
  in the `Exec` monad below: `none` = panic, `some (.error e)` = `Err(e)`,
  `some (.ok a)` = `Ok(a)`.
-/

set_option maxRecDepth 16384

namespace Chip8

/-- The tagged opcode algebra of `src/core/src/opcodes.rs` (`enum OpCode`).
Operand fields are `Nat` images of the source's `u8`/`u16` fields. -/
inductive OpCode
  | _0NNN (nnn : Nat)
  | _00E0
  | _00EE
  | _1NNN (nnn : Nat)
  | _2NNN (nnn : Nat)
  | _3XNN (x nn : Nat)
  | _4XNN (x nn : Nat)
  | _5XY0 (x y : Nat)
  | _6XNN (x nn : Nat)
  | _7XNN (x nn : Nat)
  | _8XY0 (x y : Nat)
  | _8XY1 (x y : Nat)
  | _8XY2 (x y : Nat)
  | _8XY3 (x y : Nat)
  | _8XY4 (x y : Nat)
  | _8XY5 (x y : Nat)
  | _8XY6 (x y : Nat)
  | _8XY7 (x y : Nat)
  | _8XYE (x y : Nat)
  | _9XY0 (x y : Nat)
  | _ANNN (nnn : Nat)
  | _BNNN (nnn : Nat)
  | _CXNN (x nn : Nat)
  | _DXYN (x y n : Nat)
  | _EX9E (x : Nat)
  | _EXA1 (x : Nat)
  | _FX07 (x : Nat)
  | _FX0A (x : Nat)
  | _FX15 (x : Nat)
  | _FX18 (x : Nat)
  | _FX1E (x : Nat)
  | _FX29 (x : Nat)
  | _FX33 (x : Nat)
  | _FX55 (x : Nat)
  | _FX65 (x : Nat)
  deriving DecidableEq, Repr

/-- The error taxonomy of `src/core/src/opcodes.rs` (`enum Chip8Error`). -/
inductive Chip8Error
  | InvalidOpcodeError (word : Nat)
  | UnknownOpcodeError (op : OpCode)
  | UnimplementedOpcodeError (op : OpCode)
  | StackUnderflowError
  deriving DecidableEq, Repr

deriving instance DecidableEq for Except

/-- `fn nn(instruction: u16) -> u8 { (instruction & 0xFF) as u8 }`. -/
def nnOf (instruction : Nat) : Nat := instruction &&& 0xFF

/-- `fn nnn(instruction: u16) -> u16 { (instruction & 0xFFF) as u16 }`. -/
def nnnOf (instruction : Nat) : Nat := instruction &&& 0xFFF

/-- Decoder: `impl TryFrom<(u8, u8)> for OpCode` in
`src/core/src/opcodes.rs`.  The source matches on the four nibbles of the
big-endian word with first-match-wins semantics; that `match` is rendered
here as an if-chain in the source's row order (the source's bindings
`char1 = op1 >> 4`, `char2 = op1 & 0x0F`, `char3 = op2 >> 4`,
`char4 = op2 & 0x0F`, `instruction = op1 * 256 + op2` are inlined), which
is semantically the same dispatch. -/
def decodeOp (op1 op2 : Nat) : Except Chip8Error OpCode :=
  if op1 / 16 = 0 ∧ op1 % 16 = 0 ∧ op2 / 16 = 0xE ∧ op2 % 16 = 0 then Except.ok OpCode._00E0
  else if op1 / 16 = 0 ∧ op1 % 16 = 0 ∧ op2 / 16 = 0xE ∧ op2 % 16 = 0xE then Except.ok OpCode._00EE
  else if op1 / 16 = 0 then Except.ok (OpCode._0NNN (nnnOf (op1 * 256 + op2)))
  else if op1 / 16 = 1 then Except.ok (OpCode._1NNN (nnnOf (op1 * 256 + op2)))
  else if op1 / 16 = 2 then Except.ok (OpCode._2NNN (nnnOf (op1 * 256 + op2)))
  else if op1 / 16 = 3 then Except.ok (OpCode._3XNN (op1 % 16) (nnOf (op1 * 256 + op2)))
  else if op1 / 16 = 4 then Except.ok (OpCode._4XNN (op1 % 16) (nnOf (op1 * 256 + op2)))
  else if op1 / 16 = 5 ∧ op2 % 16 = 0 then Except.ok (OpCode._5XY0 (op1 % 16) (op2 / 16))
  else if op1 / 16 = 6 then Except.ok (OpCode._6XNN (op1 % 16) (nnOf (op1 * 256 + op2)))
  else if op1 / 16 = 7 then Except.ok (OpCode._7XNN (op1 % 16) (nnOf (op1 * 256 + op2)))
  else if op1 / 16 = 8 ∧ op2 % 16 = 0 then Except.ok (OpCode._8XY0 (op1 % 16) (op2 / 16))
  else if op1 / 16 = 8 ∧ op2 % 16 = 1 then Except.ok (OpCode._8XY1 (op1 % 16) (op2 / 16))
  else if op1 / 16 = 8 ∧ op2 % 16 = 2 then Except.ok (OpCode._8XY2 (op1 % 16) (op2 / 16))
  else if op1 / 16 = 8 ∧ op2 % 16 = 3 then Except.ok (OpCode._8XY3 (op1 % 16) (op2 / 16))
  else if op1 / 16 = 8 ∧ op2 % 16 = 4 then Except.ok (OpCode._8XY4 (op1 % 16) (op2 / 16))
  else if op1 / 16 = 8 ∧ op2 % 16 = 5 then Except.ok (OpCode._8XY5 (op1 % 16) (op2 / 16))
  else if op1 / 16 = 8 ∧ op2 % 16 = 6 then Except.ok (OpCode._8XY6 (op1 % 16) (op2 / 16))
  else if op1 / 16 = 8 ∧ op2 % 16 = 7 then Except.ok (OpCode._8XY7 (op1 % 16) (op2 / 16))
  else if op1 / 16 = 8 ∧ op2 % 16 = 0xE then Except.ok (OpCode._8XYE (op1 % 16) (op2 / 16))
  else if op1 / 16 = 9 ∧ op2 % 16 = 0 then Except.ok (OpCode._9XY0 (op1 % 16) (op2 / 16))
  else if op1 / 16 = 0xA then Except.ok (OpCode._ANNN (nnnOf (op1 * 256 + op2)))
  else if op1 / 16 = 0xB then Except.ok (OpCode._BNNN (nnnOf (op1 * 256 + op2)))
  else if op1 / 16 = 0xC then Except.ok (OpCode._CXNN (op1 % 16) (nnOf (op1 * 256 + op2)))
  else if op1 / 16 = 0xD then Except.ok (OpCode._DXYN (op1 % 16) (op2 / 16) (op2 % 16))
  else if op1 / 16 = 0xE ∧ op2 / 16 = 0x9 ∧ op2 % 16 = 0xE then Except.ok (OpCode._EX9E (op1 % 16))
  else if op1 / 16 = 0xE ∧ op2 / 16 = 0xA ∧ op2 % 16 = 0x1 then Except.ok (OpCode._EXA1 (op1 % 16))
  else if op1 / 16 = 0xF ∧ op2 / 16 = 0x0 ∧ op2 % 16 = 0x7 then Except.ok (OpCode._FX07 (op1 % 16))
  else if op1 / 16 = 0xF ∧ op2 / 16 = 0x0 ∧ op2 % 16 = 0xA then Except.ok (OpCode._FX0A (op1 % 16))
  else if op1 / 16 = 0xF ∧ op2 / 16 = 0x1 ∧ op2 % 16 = 0x5 then Except.ok (OpCode._FX15 (op1 % 16))
  else if op1 / 16 = 0xF ∧ op2 / 16 = 0x1 ∧ op2 % 16 = 0x8 then Except.ok (OpCode._FX18 (op1 % 16))
  else if op1 / 16 = 0xF ∧ op2 / 16 = 0x1 ∧ op2 % 16 = 0xE then Except.ok (OpCode._FX1E (op1 % 16))
  else if op1 / 16 = 0xF ∧ op2 / 16 = 0x2 ∧ op2 % 16 = 0x9 then Except.ok (OpCode._FX29 (op1 % 16))
  else if op1 / 16 = 0xF ∧ op2 / 16 = 0x3 ∧ op2 % 16 = 0x3 then Except.ok (OpCode._FX33 (op1 % 16))
  else if op1 / 16 = 0xF ∧ op2 / 16 = 0x5 ∧ op2 % 16 = 0x5 then Except.ok (OpCode._FX55 (op1 % 16))
  else if op1 / 16 = 0xF ∧ op2 / 16 = 0x6 ∧ op2 % 16 = 0x5 then Except.ok (OpCode._FX65 (op1 % 16))
  else Except.error (Chip8Error.InvalidOpcodeError (op1 * 256 + op2))

/-- `fn left_bit(hex: u8) -> u8 { hex << 4 }` (a `u8` shift, so the
result is truncated to a byte). -/
def left_bit (hex : Nat) : Nat := (hex <<< 4) % 256

/-- Encoder: `impl From<OpCode> for (u8, u8)` in
`src/core/src/opcodes.rs`.  Casts `as u8` become `% 256`. -/
def encodeOp : OpCode → Nat × Nat
  | OpCode._00E0 => (left_bit 0 &&& 0, 0xE)
  | OpCode._00EE => (left_bit 0 &&& 0, 0xEE)
  | OpCode._0NNN nnn => (left_bit 0 ||| ((nnn >>> 8) % 256), nnn % 256)
  | OpCode._1NNN nnn => (left_bit 1 ||| ((nnn >>> 8) % 256), nnn % 256)
  | OpCode._2NNN nnn => (left_bit 2 ||| ((nnn >>> 8) % 256), nnn % 256)
  | OpCode._3XNN x nn => (left_bit 3 ||| x, nn)
  | OpCode._4XNN x nn => (left_bit 4 ||| x, nn)
  | OpCode._5XY0 x y => (left_bit 5 ||| x, left_bit y)
  | OpCode._6XNN x nn => (left_bit 6 ||| x, nn)
  | OpCode._7XNN x nn => (left_bit 7 ||| x, nn)
  | OpCode._8XY0 x y => (left_bit 8 ||| x, left_bit y)
  | OpCode._8XY1 x y => (left_bit 8 ||| x, left_bit y ||| 0x01)
  | OpCode._8XY2 x y => (left_bit 8 ||| x, left_bit y ||| 0x02)
  | OpCode._8XY3 x y => (left_bit 8 ||| x, left_bit y ||| 0x03)
  | OpCode._8XY4 x y => (left_bit 8 ||| x, left_bit y ||| 0x04)
  | OpCode._8XY5 x y => (left_bit 8 ||| x, left_bit y ||| 0x05)
  | OpCode._8XY6 x y => (left_bit 8 ||| x, left_bit y ||| 0x06)
  | OpCode._8XY7 x y => (left_bit 8 ||| x, left_bit y ||| 0x07)
  | OpCode._8XYE x y => (left_bit 8 ||| x, left_bit y ||| 0x0E)
  | OpCode._9XY0 x y => (left_bit 9 ||| x, left_bit y)
  | OpCode._ANNN nnn => (left_bit 0xA ||| ((nnn >>> 8) % 256), nnn % 256)
  | OpCode._BNNN nnn => (left_bit 0xB ||| ((nnn >>> 8) % 256), nnn % 256)
  | OpCode._CXNN x nn => (left_bit 0xC ||| x, nn)
  | OpCode._DXYN x y n => (left_bit 0xD ||| x, left_bit y ||| n)
  | OpCode._EX9E x => (left_bit 0xE ||| x, 0x9E)
  | OpCode._EXA1 x => (left_bit 0xE ||| x, 0xA1)
  | OpCode._FX07 x => (left_bit 0xF ||| x, 0x07)
  | OpCode._FX0A x => (left_bit 0xF ||| x, 0x0A)
  | OpCode._FX15 x => (left_bit 0xF ||| x, 0x15)
  | OpCode._FX18 x => (left_bit 0xF ||| x, 0x18)
  | OpCode._FX1E x => (left_bit 0xF ||| x, 0x1E)
  | OpCode._FX29 x => (left_bit 0xF ||| x, 0x29)
  | OpCode._FX33 x => (left_bit 0xF ||| x, 0x33)
  | OpCode._FX55 x => (left_bit 0xF ||| x, 0x55)
  | OpCode._FX65 x => (left_bit 0xF ||| x, 0x65)

/-- Validity of the operand fields of an opcode value, as ranged in the
specification: x, y, n in 0..15, nn in 0..255, nnn in 0..4095. -/
def validOp : OpCode → Prop
  | OpCode._0NNN nnn => nnn < 4096
  | OpCode._00E0 => True
  | OpCode._00EE => True
  | OpCode._1NNN nnn => nnn < 4096
  | OpCode._2NNN nnn => nnn < 4096
  | OpCode._3XNN x nn => x < 16 ∧ nn < 256
  | OpCode._4XNN x nn => x < 16 ∧ nn < 256
  | OpCode._5XY0 x y => x < 16 ∧ y < 16
  | OpCode._6XNN x nn => x < 16 ∧ nn < 256
  | OpCode._7XNN x nn => x < 16 ∧ nn < 256
  | OpCode._8XY0 x y => x < 16 ∧ y < 16
  | OpCode._8XY1 x y => x < 16 ∧ y < 16
  | OpCode._8XY2 x y => x < 16 ∧ y < 16
  | OpCode._8XY3 x y => x < 16 ∧ y < 16
  | OpCode._8XY4 x y => x < 16 ∧ y < 16
  | OpCode._8XY5 x y => x < 16 ∧ y < 16
  | OpCode._8XY6 x y => x < 16 ∧ y < 16
  | OpCode._8XY7 x y => x < 16 ∧ y < 16
  | OpCode._8XYE x y => x < 16 ∧ y < 16
  | OpCode._9XY0 x y => x < 16 ∧ y < 16
  | OpCode._ANNN nnn => nnn < 4096
  | OpCode._BNNN nnn => nnn < 4096
  | OpCode._CXNN x nn => x < 16 ∧ nn < 256
  | OpCode._DXYN x y n => x < 16 ∧ y < 16 ∧ n < 16
  | OpCode._EX9E x => x < 16
  | OpCode._EXA1 x => x < 16
  | OpCode._FX07 x => x < 16
  | OpCode._FX0A x => x < 16
  | OpCode._FX15 x => x < 16
  | OpCode._FX18 x => x < 16
  | OpCode._FX1E x => x < 16
  | OpCode._FX29 x => x < 16
  | OpCode._FX33 x => x < 16
  | OpCode._FX55 x => x < 16
  | OpCode._FX65 x => x < 16

instance : DecidablePred validOp := by
  intro op
  cases op <;> simp only [validOp] <;> infer_instance

/-! ### Arithmetic helpers for the codec proofs -/

theorem land255 (a : Nat) : a &&& 0xFF = a % 256 := by
  have h := Nat.and_pow_two_sub_one_eq_mod a 8
  norm_num at h
  exact h

theorem land4095 (a : Nat) : a &&& 0xFFF = a % 4096 := by
  have h := Nat.and_pow_two_sub_one_eq_mod a 12
  norm_num at h
  exact h

theorem lor16 (c x : Nat) (h : x < 16) : (16 * c) ||| x = 16 * c + x := by
  have h2 := Nat.mul_add_lt_is_or (b := x) (i := 4) (by omega) c
  norm_num at h2
  omega

theorem left_bit_eq (c : Nat) (hc : c < 16) : left_bit c = 16 * c := by
  simp only [left_bit, Nat.shiftLeft_eq]
  norm_num
  omega

theorem left_bit_lor (c x : Nat) (hc : c < 16) (h : x < 16) :
    left_bit c ||| x = 16 * c + x := by
  rw [left_bit_eq c hc, lor16 c x h]

theorem shiftRight8 (a : Nat) : a >>> 8 = a / 256 := by
  rw [Nat.shiftRight_eq_div_pow]

theorem lor256 (a b : Nat) (h : b < 256) : (a <<< 8) ||| b = a * 256 + b := by
  have h2 := Nat.mul_add_lt_is_or (b := b) (i := 8) (by omega) a
  norm_num at h2
  rw [Nat.shiftLeft_eq]
  norm_num
  rw [Nat.mul_comm a 256]
  exact h2.symm

/-! ### Per-shape round-trip lemmas for the opcode codec -/


/-- `if_neg`, under a repository-local name (used in the long decoder
rewrite chains). -/
theorem if_neg_chip {c : Prop} [Decidable c] (hnc : ¬c) {α : Sort v}
    {t e : α} : (if c then t else e) = e := if_neg hnc

/-- `if_pos`, under a repository-local name (used in the long decoder
rewrite chains). -/
theorem if_pos_chip {c : Prop} [Decidable c] (hc : c) {α : Sort v}
    {t e : α} : (if c then t else e) = t := if_pos hc

theorem rt_00EE : decodeOp (left_bit 0 &&& 0) 0xEE = Except.ok OpCode._00EE := by decide

theorem rt_0NNN (nnn : Nat) (h : nnn < 4096) (hne1 : nnn ≠ 0xE0) (hne2 : nnn ≠ 0xEE) :
    decodeOp (left_bit 0 ||| (nnn >>> 8) % 256) (nnn % 256) = Except.ok (OpCode._0NNN nnn) := by
  rw [shiftRight8, show (nnn / 256) % 256 = nnn / 256 by omega,
    left_bit_lor 0 (nnn / 256) (by omega) (by omega)]
  unfold decodeOp
  rw [if_neg_chip (by omega), if_neg_chip (by omega), if_pos_chip (by omega)]
  simp only [nnnOf, land4095, Except.ok.injEq, OpCode._0NNN.injEq]
  omega

theorem rt_1NNN (nnn : Nat) (h : nnn < 4096) :
    decodeOp (left_bit 1 ||| (nnn >>> 8) % 256) (nnn % 256) = Except.ok (OpCode._1NNN nnn) := by
  rw [shiftRight8, show (nnn / 256) % 256 = nnn / 256 by omega,
    left_bit_lor 1 (nnn / 256) (by omega) (by omega)]
  unfold decodeOp
  rw [if_neg_chip (by omega), if_neg_chip (by omega), if_neg_chip (by omega), if_pos_chip (by omega)]
  simp only [nnnOf, land4095, Except.ok.injEq, OpCode._1NNN.injEq]
  omega

theorem rt_2NNN (nnn : Nat) (h : nnn < 4096) :
    decodeOp (left_bit 2 ||| (nnn >>> 8) % 256) (nnn % 256) = Except.ok (OpCode._2NNN nnn) := by
  rw [shiftRight8, show (nnn / 256) % 256 = nnn / 256 by omega,
    left_bit_lor 2 (nnn / 256) (by omega) (by omega)]
  unfold decodeOp
  rw [if_neg_chip (by omega), if_neg_chip (by omega), if_neg_chip (by omega), if_neg_chip (by omega),
    if_pos_chip (by omega)]
  simp only [nnnOf, land4095, Except.ok.injEq, OpCode._2NNN.injEq]
  omega

theorem rt_3XNN (x nn : Nat) (hx : x < 16) (hnn : nn < 256) :
    decodeOp (left_bit 3 ||| x) nn = Except.ok (OpCode._3XNN x nn) := by
  rw [left_bit_lor 3 x (by omega) hx]
  unfold decodeOp
  rw [if_neg_chip (by omega), if_neg_chip (by omega), if_neg_chip (by omega), if_neg_chip (by omega),
    if_neg_chip (by omega), if_pos_chip (by omega)]
  simp only [nnOf, land255, Except.ok.injEq, OpCode._3XNN.injEq]
  omega

theorem rt_4XNN (x nn : Nat) (hx : x < 16) (hnn : nn < 256) :
    decodeOp (left_bit 4 ||| x) nn = Except.ok (OpCode._4XNN x nn) := by
  rw [left_bit_lor 4 x (by omega) hx]
  unfold decodeOp
  rw [if_neg_chip (by omega), if_neg_chip (by omega), if_neg_chip (by omega), if_neg_chip (by omega),
    if_neg_chip (by omega), if_neg_chip (by omega), if_pos_chip (by omega)]
  simp only [nnOf, land255, Except.ok.injEq, OpCode._4XNN.injEq]
  omega

theorem rt_5XY0 (x y : Nat) (hx : x < 16) (hy : y < 16) :
    decodeOp (left_bit 5 ||| x) (left_bit y) = Except.ok (OpCode._5XY0 x y) := by
  rw [left_bit_lor 5 x (by omega) hx, left_bit_eq y hy]
  unfold decodeOp
  rw [if_neg_chip (by omega), if_neg_chip (by omega), if_neg_chip (by omega), if_neg_chip (by omega),
    if_neg_chip (by omega), if_neg_chip (by omega), if_neg_chip (by omega), if_pos_chip (by omega)]
  simp only [Except.ok.injEq, OpCode._5XY0.injEq]
  omega

theorem rt_6XNN (x nn : Nat) (hx : x < 16) (hnn : nn < 256) :
    decodeOp (left_bit 6 ||| x) nn = Except.ok (OpCode._6XNN x nn) := by
  rw [left_bit_lor 6 x (by omega) hx]
  unfold decodeOp
  rw [if_neg_chip (by omega), if_neg_chip (by omega), if_neg_chip (by omega), if_neg_chip (by omega),
    if_neg_chip (by omega), if_neg_chip (by omega), if_neg_chip (by omega), if_neg_chip (by omega),
    if_pos_chip (by omega)]
  simp only [nnOf, land255, Except.ok.injEq, OpCode._6XNN.injEq]
  omega

theorem rt_7XNN (x nn : Nat) (hx : x < 16) (hnn : nn < 256) :
    decodeOp (left_bit 7 ||| x) nn = Except.ok (OpCode._7XNN x nn) := by
  rw [left_bit_lor 7 x (by omega) hx]
  unfold decodeOp
  rw [if_neg_chip (by omega), if_neg_chip (by omega), if_neg_chip (by omega), if_neg_chip (by omega),
    if_neg_chip (by omega), if_neg_chip (by omega), if_neg_chip (by omega), if_neg_chip (by omega),
    if_neg_chip (by omega), if_pos_chip (by omega)]
  simp only [nnOf, land255, Except.ok.injEq, OpCode._7XNN.injEq]
  omega

theorem rt_8XY0 (x y : Nat) (hx : x < 16) (hy : y < 16) :
    decodeOp (left_bit 8 ||| x) (left_bit y) = Except.ok (OpCode._8XY0 x y) := by
  rw [left_bit_lor 8 x (by omega) hx, left_bit_eq y hy]
  unfold decodeOp
  rw [if_neg_chip (by omega), if_neg_chip (by omega), if_neg_chip (by omega), if_neg_chip (by omega),
    if_neg_chip (by omega), if_neg_chip (by omega), if_neg_chip (by omega), if_neg_chip (by omega),
    if_neg_chip (by omega), if_neg_chip (by omega), if_pos_chip (by omega)]
  simp only [Except.ok.injEq, OpCode._8XY0.injEq]
  omega

theorem rt_8XY1 (x y : Nat) (hx : x < 16) (hy : y < 16) :
    decodeOp (left_bit 8 ||| x) (left_bit y ||| 0x01) = Except.ok (OpCode._8XY1 x y) := by
  rw [left_bit_lor 8 x (by omega) hx, left_bit_lor y 0x01 hy (by omega)]
  unfold decodeOp
  rw [if_neg_chip (by omega), if_neg_chip (by omega), if_neg_chip (by omega), if_neg_chip (by omega),
    if_neg_chip (by omega), if_neg_chip (by omega), if_neg_chip (by omega), if_neg_chip (by omega),
    if_neg_chip (by omega), if_neg_chip (by omega), if_neg_chip (by omega), if_pos_chip (by omega)]
  simp only [Except.ok.injEq, OpCode._8XY1.injEq]
  omega

theorem rt_8XY2 (x y : Nat) (hx : x < 16) (hy : y < 16) :
    decodeOp (left_bit 8 ||| x) (left_bit y ||| 0x02) = Except.ok (OpCode._8XY2 x y) := by
  rw [left_bit_lor 8 x (by omega) hx, left_bit_lor y 0x02 hy (by omega)]
  unfold decodeOp
  rw [if_neg_chip (by omega), if_neg_chip (by omega), if_neg_chip (by omega), if_neg_chip (by omega),
    if_neg_chip (by omega), if_neg_chip (by omega), if_neg_chip (by omega), if_neg_chip (by omega),
    if_neg_chip (by omega), if_neg_chip (by omega), if_neg_chip (by omega), if_neg_chip (by omega),
    if_pos_chip (by omega)]
  simp only [Except.ok.injEq, OpCode._8XY2.injEq]
  omega

theorem rt_8XY3 (x y : Nat) (hx : x < 16) (hy : y < 16) :
    decodeOp (left_bit 8 ||| x) (left_bit y ||| 0x03) = Except.ok (OpCode._8XY3 x y) := by
  rw [left_bit_lor 8 x (by omega) hx, left_bit_lor y 0x03 hy (by omega)]
  unfold decodeOp
  rw [if_neg_chip (by omega), if_neg_chip (by omega), if_neg_chip (by omega), if_neg_chip (by omega),
    if_neg_chip (by omega), if_neg_chip (by omega), if_neg_chip (by omega), if_neg_chip (by omega),
    if_neg_chip (by omega), if_neg_chip (by omega), if_neg_chip (by omega), if_neg_chip (by omega),
    if_neg_chip (by omega), if_pos_chip (by omega)]
  simp only [Except.ok.injEq, OpCode._8XY3.injEq]
  omega

theorem rt_8XY4 (x y : Nat) (hx : x < 16) (hy : y < 16) :
    decodeOp (left_bit 8 ||| x) (left_bit y ||| 0x04) = Except.ok (OpCode._8XY4 x y) := by
  rw [left_bit_lor 8 x (by omega) hx, left_bit_lor y 0x04 hy (by omega)]
  unfold decodeOp
  rw [if_neg_chip (by omega), if_neg_chip (by omega), if_neg_chip (by omega), if_neg_chip (by omega),
    if_neg_chip (by omega), if_neg_chip (by omega), if_neg_chip (by omega), if_neg_chip (by omega),
    if_neg_chip (by omega), if_neg_chip (by omega), if_neg_chip (by omega), if_neg_chip (by omega),
    if_neg_chip (by omega), if_neg_chip (by omega), if_pos_chip (by omega)]
  simp only [Except.ok.injEq, OpCode._8XY4.injEq]
  omega

theorem rt_8XY5 (x y : Nat) (hx : x < 16) (hy : y < 16) :
    decodeOp (left_bit 8 ||| x) (left_bit y ||| 0x05) = Except.ok (OpCode._8XY5 x y) := by
  rw [left_bit_lor 8 x (by omega) hx, left_bit_lor y 0x05 hy (by omega)]
  unfold decodeOp
  rw [if_neg_chip (by omega), if_neg_chip (by omega), if_neg_chip (by omega), if_neg_chip (by omega),
    if_neg_chip (by omega), if_neg_chip (by omega), if_neg_chip (by omega), if_neg_chip (by omega),
    if_neg_chip (by omega), if_neg_chip (by omega), if_neg_chip (by omega), if_neg_chip (by omega),
    if_neg_chip (by omega), if_neg_chip (by omega), if_neg_chip (by omega), if_pos_chip (by omega)]
  simp only [Except.ok.injEq, OpCode._8XY5.injEq]
  omega

theorem rt_8XY6 (x y : Nat) (hx : x < 16) (hy : y < 16) :
    decodeOp (left_bit 8 ||| x) (left_bit y ||| 0x06) = Except.ok (OpCode._8XY6 x y) := by
  rw [left_bit_lor 8 x (by omega) hx, left_bit_lor y 0x06 hy (by omega)]
  unfold decodeOp
  rw [if_neg_chip (by omega), if_neg_chip (by omega), if_neg_chip (by omega), if_neg_chip (by omega),
    if_neg_chip (by omega), if_neg_chip (by omega), if_neg_chip (by omega), if_neg_chip (by omega),
    if_neg_chip (by omega), if_neg_chip (by omega), if_neg_chip (by omega), if_neg_chip (by omega),
    if_neg_chip (by omega), if_neg_chip (by omega), if_neg_chip (by omega), if_neg_chip (by omega),
    if_pos_chip (by omega)]
  simp only [Except.ok.injEq, OpCode._8XY6.injEq]
  omega

theorem rt_8XY7 (x y : Nat) (hx : x < 16) (hy : y < 16) :
    decodeOp (left_bit 8 ||| x) (left_bit y ||| 0x07) = Except.ok (OpCode._8XY7 x y) := by
  rw [left_bit_lor 8 x (by omega) hx, left_bit_lor y 0x07 hy (by omega)]
  unfold decodeOp
  rw [if_neg_chip (by omega), if_neg_chip (by omega), if_neg_chip (by omega), if_neg_chip (by omega),
    if_neg_chip (by omega), if_neg_chip (by omega), if_neg_chip (by omega), if_neg_chip (by omega),
    if_neg_chip (by omega), if_neg_chip (by omega), if_neg_chip (by omega), if_neg_chip (by omega),
    if_neg_chip (by omega), if_neg_chip (by omega), if_neg_chip (by omega), if_neg_chip (by omega),
    if_neg_chip (by omega), if_pos_chip (by omega)]
  simp only [Except.ok.injEq, OpCode._8XY7.injEq]
  omega

theorem rt_8XYE (x y : Nat) (hx : x < 16) (hy : y < 16) :
    decodeOp (left_bit 8 ||| x) (left_bit y ||| 0x0E) = Except.ok (OpCode._8XYE x y) := by
  rw [left_bit_lor 8 x (by omega) hx, left_bit_lor y 0x0E hy (by omega)]
  unfold decodeOp
  rw [if_neg_chip (by omega), if_neg_chip (by omega), if_neg_chip (by omega), if_neg_chip (by omega),
    if_neg_chip (by omega), if_neg_chip (by omega), if_neg_chip (by omega), if_neg_chip (by omega),
    if_neg_chip (by omega), if_neg_chip (by omega), if_neg_chip (by omega), if_neg_chip (by omega),
    if_neg_chip (by omega), if_neg_chip (by omega), if_neg_chip (by omega), if_neg_chip (by omega),
    if_neg_chip (by omega), if_neg_chip (by omega), if_pos_chip (by omega)]
  simp only [Except.ok.injEq, OpCode._8XYE.injEq]
  omega

theorem rt_9XY0 (x y : Nat) (hx : x < 16) (hy : y < 16) :
    decodeOp (left_bit 9 ||| x) (left_bit y) = Except.ok (OpCode._9XY0 x y) := by
  rw [left_bit_lor 9 x (by omega) hx, left_bit_eq y hy]
  unfold decodeOp
  rw [if_neg_chip (by omega), if_neg_chip (by omega), if_neg_chip (by omega), if_neg_chip (by omega),
    if_neg_chip (by omega), if_neg_chip (by omega), if_neg_chip (by omega), if_neg_chip (by omega),
    if_neg_chip (by omega), if_neg_chip (by omega), if_neg_chip (by omega), if_neg_chip (by omega),
    if_neg_chip (by omega), if_neg_chip (by omega), if_neg_chip (by omega), if_neg_chip (by omega),
    if_neg_chip (by omega), if_neg_chip (by omega), if_neg_chip (by omega), if_pos_chip (by omega)]
  simp only [Except.ok.injEq, OpCode._9XY0.injEq]
  omega

theorem rt_ANNN (nnn : Nat) (h : nnn < 4096) :
    decodeOp (left_bit 0xA ||| (nnn >>> 8) % 256) (nnn % 256) = Except.ok (OpCode._ANNN nnn) := by
  rw [shiftRight8, show (nnn / 256) % 256 = nnn / 256 by omega,
    left_bit_lor 0xA (nnn / 256) (by omega) (by omega)]
  unfold decodeOp
  rw [if_neg_chip (by omega), if_neg_chip (by omega), if_neg_chip (by omega), if_neg_chip (by omega),
    if_neg_chip (by omega), if_neg_chip (by omega), if_neg_chip (by omega), if_neg_chip (by omega),
    if_neg_chip (by omega), if_neg_chip (by omega), if_neg_chip (by omega), if_neg_chip (by omega),
    if_neg_chip (by omega), if_neg_chip (by omega), if_neg_chip (by omega), if_neg_chip (by omega),
    if_neg_chip (by omega), if_neg_chip (by omega), if_neg_chip (by omega), if_neg_chip (by omega),
    if_pos_chip (by omega)]
  simp only [nnnOf, land4095, Except.ok.injEq, OpCode._ANNN.injEq]
  omega

theorem rt_BNNN (nnn : Nat) (h : nnn < 4096) :
    decodeOp (left_bit 0xB ||| (nnn >>> 8) % 256) (nnn % 256) = Except.ok (OpCode._BNNN nnn) := by
  rw [shiftRight8, show (nnn / 256) % 256 = nnn / 256 by omega,
    left_bit_lor 0xB (nnn / 256) (by omega) (by omega)]
  unfold decodeOp
  rw [if_neg_chip (by omega), if_neg_chip (by omega), if_neg_chip (by omega), if_neg_chip (by omega),
    if_neg_chip (by omega), if_neg_chip (by omega), if_neg_chip (by omega), if_neg_chip (by omega),
    if_neg_chip (by omega), if_neg_chip (by omega), if_neg_chip (by omega), if_neg_chip (by omega),
    if_neg_chip (by omega), if_neg_chip (by omega), if_neg_chip (by omega), if_neg_chip (by omega),
    if_neg_chip (by omega), if_neg_chip (by omega), if_neg_chip (by omega), if_neg_chip (by omega),
    if_neg_chip (by omega), if_pos_chip (by omega)]
  simp only [nnnOf, land4095, Except.ok.injEq, OpCode._BNNN.injEq]
  omega

theorem rt_CXNN (x nn : Nat) (hx : x < 16) (hnn : nn < 256) :
    decodeOp (left_bit 0xC ||| x) nn = Except.ok (OpCode._CXNN x nn) := by
  rw [left_bit_lor 0xC x (by omega) hx]
  unfold decodeOp
  rw [if_neg_chip (by omega), if_neg_chip (by omega), if_neg_chip (by omega), if_neg_chip (by omega),
    if_neg_chip (by omega), if_neg_chip (by omega), if_neg_chip (by omega), if_neg_chip (by omega),
    if_neg_chip (by omega), if_neg_chip (by omega), if_neg_chip (by omega), if_neg_chip (by omega),
    if_neg_chip (by omega), if_neg_chip (by omega), if_neg_chip (by omega), if_neg_chip (by omega),
    if_neg_chip (by omega), if_neg_chip (by omega), if_neg_chip (by omega), if_neg_chip (by omega),
    if_neg_chip (by omega), if_neg_chip (by omega), if_pos_chip (by omega)]
  simp only [nnOf, land255, Except.ok.injEq, OpCode._CXNN.injEq]
  omega

theorem rt_DXYN (x y n : Nat) (hx : x < 16) (hy : y < 16) (hn : n < 16) :
    decodeOp (left_bit 0xD ||| x) (left_bit y ||| n) = Except.ok (OpCode._DXYN x y n) := by
  rw [left_bit_lor 0xD x (by omega) hx, left_bit_lor y n hy hn]
  unfold decodeOp
  rw [if_neg_chip (by omega), if_neg_chip (by omega), if_neg_chip (by omega), if_neg_chip (by omega),
    if_neg_chip (by omega), if_neg_chip (by omega), if_neg_chip (by omega), if_neg_chip (by omega),
    if_neg_chip (by omega), if_neg_chip (by omega), if_neg_chip (by omega), if_neg_chip (by omega),
    if_neg_chip (by omega), if_neg_chip (by omega), if_neg_chip (by omega), if_neg_chip (by omega),
    if_neg_chip (by omega), if_neg_chip (by omega), if_neg_chip (by omega), if_neg_chip (by omega),
    if_neg_chip (by omega), if_neg_chip (by omega), if_neg_chip (by omega), if_pos_chip (by omega)]
  simp only [Except.ok.injEq, OpCode._DXYN.injEq]
  omega

theorem rt_EX9E (x : Nat) (hx : x < 16) :
    decodeOp (left_bit 0xE ||| x) 0x9E = Except.ok (OpCode._EX9E x) := by
  rw [left_bit_lor 0xE x (by omega) hx]
  unfold decodeOp
  rw [if_neg_chip (by omega), if_neg_chip (by omega), if_neg_chip (by omega), if_neg_chip (by omega),
    if_neg_chip (by omega), if_neg_chip (by omega), if_neg_chip (by omega), if_neg_chip (by omega),
    if_neg_chip (by omega), if_neg_chip (by omega), if_neg_chip (by omega), if_neg_chip (by omega),
    if_neg_chip (by omega), if_neg_chip (by omega), if_neg_chip (by omega), if_neg_chip (by omega),
    if_neg_chip (by omega), if_neg_chip (by omega), if_neg_chip (by omega), if_neg_chip (by omega),
    if_neg_chip (by omega), if_neg_chip (by omega), if_neg_chip (by omega), if_neg_chip (by omega),
    if_pos_chip (by omega)]
  simp only [Except.ok.injEq, OpCode._EX9E.injEq]
  omega

theorem rt_EXA1 (x : Nat) (hx : x < 16) :
    decodeOp (left_bit 0xE ||| x) 0xA1 = Except.ok (OpCode._EXA1 x) := by
  rw [left_bit_lor 0xE x (by omega) hx]
  unfold decodeOp
  rw [if_neg_chip (by omega), if_neg_chip (by omega), if_neg_chip (by omega), if_neg_chip (by omega),
    if_neg_chip (by omega), if_neg_chip (by omega), if_neg_chip (by omega), if_neg_chip (by omega),
    if_neg_chip (by omega), if_neg_chip (by omega), if_neg_chip (by omega), if_neg_chip (by omega),
    if_neg_chip (by omega), if_neg_chip (by omega), if_neg_chip (by omega), if_neg_chip (by omega),
    if_neg_chip (by omega), if_neg_chip (by omega), if_neg_chip (by omega), if_neg_chip (by omega),
    if_neg_chip (by omega), if_neg_chip (by omega), if_neg_chip (by omega), if_neg_chip (by omega),
    if_neg_chip (by omega), if_pos_chip (by omega)]
  simp only [Except.ok.injEq, OpCode._EXA1.injEq]
  omega

theorem rt_FX07 (x : Nat) (hx : x < 16) :
    decodeOp (left_bit 0xF ||| x) 0x07 = Except.ok (OpCode._FX07 x) := by
  rw [left_bit_lor 0xF x (by omega) hx]
  unfold decodeOp
  rw [if_neg_chip (by omega), if_neg_chip (by omega), if_neg_chip (by omega), if_neg_chip (by omega),
    if_neg_chip (by omega), if_neg_chip (by omega), if_neg_chip (by omega), if_neg_chip (by omega),
    if_neg_chip (by omega), if_neg_chip (by omega), if_neg_chip (by omega), if_neg_chip (by omega),
    if_neg_chip (by omega), if_neg_chip (by omega), if_neg_chip (by omega), if_neg_chip (by omega),
    if_neg_chip (by omega), if_neg_chip (by omega), if_neg_chip (by omega), if_neg_chip (by omega),
    if_neg_chip (by omega), if_neg_chip (by omega), if_neg_chip (by omega), if_neg_chip (by omega),
    if_neg_chip (by omega), if_neg_chip (by omega), if_pos_chip (by omega)]
  simp only [Except.ok.injEq, OpCode._FX07.injEq]
  omega

theorem rt_FX0A (x : Nat) (hx : x < 16) :
    decodeOp (left_bit 0xF ||| x) 0x0A = Except.ok (OpCode._FX0A x) := by
  rw [left_bit_lor 0xF x (by omega) hx]
  unfold decodeOp
  rw [if_neg_chip (by omega), if_neg_chip (by omega), if_neg_chip (by omega), if_neg_chip (by omega),
    if_neg_chip (by omega), if_neg_chip (by omega), if_neg_chip (by omega), if_neg_chip (by omega),
    if_neg_chip (by omega), if_neg_chip (by omega), if_neg_chip (by omega), if_neg_chip (by omega),
    if_neg_chip (by omega), if_neg_chip (by omega), if_neg_chip (by omega), if_neg_chip (by omega),
    if_neg_chip (by omega), if_neg_chip (by omega), if_neg_chip (by omega), if_neg_chip (by omega),
    if_neg_chip (by omega), if_neg_chip (by omega), if_neg_chip (by omega), if_neg_chip (by omega),
    if_neg_chip (by omega), if_neg_chip (by omega), if_neg_chip (by omega), if_pos_chip (by omega)]
  simp only [Except.ok.injEq, OpCode._FX0A.injEq]
  omega

theorem rt_FX15 (x : Nat) (hx : x < 16) :
    decodeOp (left_bit 0xF ||| x) 0x15 = Except.ok (OpCode._FX15 x) := by
  rw [left_bit_lor 0xF x (by omega) hx]
  unfold decodeOp
  rw [if_neg_chip (by omega), if_neg_chip (by omega), if_neg_chip (by omega), if_neg_chip (by omega),
    if_neg_chip (by omega), if_neg_chip (by omega), if_neg_chip (by omega), if_neg_chip (by omega),
    if_neg_chip (by omega), if_neg_chip (by omega), if_neg_chip (by omega), if_neg_chip (by omega),
    if_neg_chip (by omega), if_neg_chip (by omega), if_neg_chip (by omega), if_neg_chip (by omega),
    if_neg_chip (by omega), if_neg_chip (by omega), if_neg_chip (by omega), if_neg_chip (by omega),
    if_neg_chip (by omega), if_neg_chip (by omega), if_neg_chip (by omega), if_neg_chip (by omega),
    if_neg_chip (by omega), if_neg_chip (by omega), if_neg_chip (by omega), if_neg_chip (by omega),
    if_pos_chip (by omega)]
  simp only [Except.ok.injEq, OpCode._FX15.injEq]
  omega

theorem rt_FX18 (x : Nat) (hx : x < 16) :
    decodeOp (left_bit 0xF ||| x) 0x18 = Except.ok (OpCode._FX18 x) := by
  rw [left_bit_lor 0xF x (by omega) hx]
  unfold decodeOp
  rw [if_neg_chip (by omega), if_neg_chip (by omega), if_neg_chip (by omega), if_neg_chip (by omega),
    if_neg_chip (by omega), if_neg_chip (by omega), if_neg_chip (by omega), if_neg_chip (by omega),
    if_neg_chip (by omega), if_neg_chip (by omega), if_neg_chip (by omega), if_neg_chip (by omega),
    if_neg_chip (by omega), if_neg_chip (by omega), if_neg_chip (by omega), if_neg_chip (by omega),
    if_neg_chip (by omega), if_neg_chip (by omega), if_neg_chip (by omega), if_neg_chip (by omega),
    if_neg_chip (by omega), if_neg_chip (by omega), if_neg_chip (by omega), if_neg_chip (by omega),
    if_neg_chip (by omega), if_neg_chip (by omega), if_neg_chip (by omega), if_neg_chip (by omega),
    if_neg_chip (by omega), if_pos_chip (by omega)]
  simp only [Except.ok.injEq, OpCode._FX18.injEq]
  omega

theorem rt_FX1E (x : Nat) (hx : x < 16) :
    decodeOp (left_bit 0xF ||| x) 0x1E = Except.ok (OpCode._FX1E x) := by
  rw [left_bit_lor 0xF x (by omega) hx]
  unfold decodeOp
  rw [if_neg_chip (by omega), if_neg_chip (by omega), if_neg_chip (by omega), if_neg_chip (by omega),
    if_neg_chip (by omega), if_neg_chip (by omega), if_neg_chip (by omega), if_neg_chip (by omega),
    if_neg_chip (by omega), if_neg_chip (by omega), if_neg_chip (by omega), if_neg_chip (by omega),
    if_neg_chip (by omega), if_neg_chip (by omega), if_neg_chip (by omega), if_neg_chip (by omega),
    if_neg_chip (by omega), if_neg_chip (by omega), if_neg_chip (by omega), if_neg_chip (by omega),
    if_neg_chip (by omega), if_neg_chip (by omega), if_neg_chip (by omega), if_neg_chip (by omega),
    if_neg_chip (by omega), if_neg_chip (by omega), if_neg_chip (by omega), if_neg_chip (by omega),
    if_neg_chip (by omega), if_neg_chip (by omega), if_pos_chip (by omega)]
  simp only [Except.ok.injEq, OpCode._FX1E.injEq]
  omega

theorem rt_FX29 (x : Nat) (hx : x < 16) :
    decodeOp (left_bit 0xF ||| x) 0x29 = Except.ok (OpCode._FX29 x) := by
  rw [left_bit_lor 0xF x (by omega) hx]
  unfold decodeOp
  rw [if_neg_chip (by omega), if_neg_chip (by omega), if_neg_chip (by omega), if_neg_chip (by omega),
    if_neg_chip (by omega), if_neg_chip (by omega), if_neg_chip (by omega), if_neg_chip (by omega),
    if_neg_chip (by omega), if_neg_chip (by omega), if_neg_chip (by omega), if_neg_chip (by omega),
    if_neg_chip (by omega), if_neg_chip (by omega), if_neg_chip (by omega), if_neg_chip (by omega),
    if_neg_chip (by omega), if_neg_chip (by omega), if_neg_chip (by omega), if_neg_chip (by omega),
    if_neg_chip (by omega), if_neg_chip (by omega), if_neg_chip (by omega), if_neg_chip (by omega),
    if_neg_chip (by omega), if_neg_chip (by omega), if_neg_chip (by omega), if_neg_chip (by omega),
    if_neg_chip (by omega), if_neg_chip (by omega), if_neg_chip (by omega), if_pos_chip (by omega)]
  simp only [Except.ok.injEq, OpCode._FX29.injEq]
  omega

theorem rt_FX33 (x : Nat) (hx : x < 16) :
    decodeOp (left_bit 0xF ||| x) 0x33 = Except.ok (OpCode._FX33 x) := by
  rw [left_bit_lor 0xF x (by omega) hx]
  unfold decodeOp
  rw [if_neg_chip (by omega), if_neg_chip (by omega), if_neg_chip (by omega), if_neg_chip (by omega),
    if_neg_chip (by omega), if_neg_chip (by omega), if_neg_chip (by omega), if_neg_chip (by omega),
    if_neg_chip (by omega), if_neg_chip (by omega), if_neg_chip (by omega), if_neg_chip (by omega),
    if_neg_chip (by omega), if_neg_chip (by omega), if_neg_chip (by omega), if_neg_chip (by omega),
    if_neg_chip (by omega), if_neg_chip (by omega), if_neg_chip (by omega), if_neg_chip (by omega),
    if_neg_chip (by omega), if_neg_chip (by omega), if_neg_chip (by omega), if_neg_chip (by omega),
    if_neg_chip (by omega), if_neg_chip (by omega), if_neg_chip (by omega), if_neg_chip (by omega),
    if_neg_chip (by omega), if_neg_chip (by omega), if_neg_chip (by omega), if_neg_chip (by omega),
    if_pos_chip (by omega)]
  simp only [Except.ok.injEq, OpCode._FX33.injEq]
  omega

theorem rt_FX55 (x : Nat) (hx : x < 16) :
    decodeOp (left_bit 0xF ||| x) 0x55 = Except.ok (OpCode._FX55 x) := by
  rw [left_bit_lor 0xF x (by omega) hx]
  unfold decodeOp
  rw [if_neg_chip (by omega), if_neg_chip (by omega), if_neg_chip (by omega), if_neg_chip (by omega),
    if_neg_chip (by omega), if_neg_chip (by omega), if_neg_chip (by omega), if_neg_chip (by omega),
    if_neg_chip (by omega), if_neg_chip (by omega), if_neg_chip (by omega), if_neg_chip (by omega),
    if_neg_chip (by omega), if_neg_chip (by omega), if_neg_chip (by omega), if_neg_chip (by omega),
    if_neg_chip (by omega), if_neg_chip (by omega), if_neg_chip (by omega), if_neg_chip (by omega),
    if_neg_chip (by omega), if_neg_chip (by omega), if_neg_chip (by omega), if_neg_chip (by omega),
    if_neg_chip (by omega), if_neg_chip (by omega), if_neg_chip (by omega), if_neg_chip (by omega),
    if_neg_chip (by omega), if_neg_chip (by omega), if_neg_chip (by omega), if_neg_chip (by omega),
    if_neg_chip (by omega), if_pos_chip (by omega)]
  simp only [Except.ok.injEq, OpCode._FX55.injEq]
  omega

theorem rt_FX65 (x : Nat) (hx : x < 16) :
    decodeOp (left_bit 0xF ||| x) 0x65 = Except.ok (OpCode._FX65 x) := by
  rw [left_bit_lor 0xF x (by omega) hx]
  unfold decodeOp
  rw [if_neg_chip (by omega), if_neg_chip (by omega), if_neg_chip (by omega), if_neg_chip (by omega),
    if_neg_chip (by omega), if_neg_chip (by omega), if_neg_chip (by omega), if_neg_chip (by omega),
    if_neg_chip (by omega), if_neg_chip (by omega), if_neg_chip (by omega), if_neg_chip (by omega),
    if_neg_chip (by omega), if_neg_chip (by omega), if_neg_chip (by omega), if_neg_chip (by omega),
    if_neg_chip (by omega), if_neg_chip (by omega), if_neg_chip (by omega), if_neg_chip (by omega),
    if_neg_chip (by omega), if_neg_chip (by omega), if_neg_chip (by omega), if_neg_chip (by omega),
    if_neg_chip (by omega), if_neg_chip (by omega), if_neg_chip (by omega), if_neg_chip (by omega),
    if_neg_chip (by omega), if_neg_chip (by omega), if_neg_chip (by omega), if_neg_chip (by omega),
    if_neg_chip (by omega), if_neg_chip (by omega), if_pos_chip (by omega)]
  simp only [Except.ok.injEq, OpCode._FX65.injEq]
  omega

set_option maxHeartbeats 1600000 in
/-- Word direction of the codec round-trip: every byte pair on which
decode succeeds is reproduced by encoding the decoded opcode, except the
word 0x00E0 (whose decoded opcode `_00E0` re-encodes to 0x000E). -/
theorem encode_decodeOp (a b : Nat) (ha : a < 256) (hb : b < 256)
    (hne : ¬(a = 0 ∧ b = 0xE0)) (op : OpCode) :
    decodeOp a b = Except.ok op → encodeOp op = (a, b) := by
  unfold decodeOp
  by_cases g0 : a / 16 = 0 ∧ a % 16 = 0 ∧ b / 16 = 14 ∧ b % 16 = 0
  · rw [if_pos g0]
    intro h2
    exact absurd (by omega : a = 0 ∧ b = 0xE0) hne
  · rw [if_neg g0]
    by_cases g1 : a / 16 = 0 ∧ a % 16 = 0 ∧ b / 16 = 14 ∧ b % 16 = 14
    · rw [if_pos g1]
      intro hh
      injection hh with h2
      subst h2
      simp only [encodeOp, nnOf, nnnOf]
      have ha0 : a = 0 := by omega
      have hb0 : b = 0xEE := by omega
      subst ha0
      subst hb0
      decide
    · rw [if_neg g1]
      by_cases g2 : a / 16 = 0
      · rw [if_pos g2]
        intro hh
        injection hh with h2
        subst h2
        simp only [encodeOp, nnOf, nnnOf]
        rw [land4095, shiftRight8,
          left_bit_lor 0 ((a * 256 + b) % 4096 / 256 % 256) (by omega) (by omega)]
        simp only [Prod.mk.injEq]
        omega
      · rw [if_neg g2]
        by_cases g3 : a / 16 = 1
        · rw [if_pos g3]
          intro hh
          injection hh with h2
          subst h2
          simp only [encodeOp, nnOf, nnnOf]
          rw [land4095, shiftRight8,
            left_bit_lor 1 ((a * 256 + b) % 4096 / 256 % 256) (by omega) (by omega)]
          simp only [Prod.mk.injEq]
          omega
        · rw [if_neg g3]
          by_cases g4 : a / 16 = 2
          · rw [if_pos g4]
            intro hh
            injection hh with h2
            subst h2
            simp only [encodeOp, nnOf, nnnOf]
            rw [land4095, shiftRight8,
              left_bit_lor 2 ((a * 256 + b) % 4096 / 256 % 256) (by omega) (by omega)]
            simp only [Prod.mk.injEq]
            omega
          · rw [if_neg g4]
            by_cases g5 : a / 16 = 3
            · rw [if_pos g5]
              intro hh
              injection hh with h2
              subst h2
              simp only [encodeOp, nnOf, nnnOf]
              rw [land255, left_bit_lor 3 (a % 16) (by omega) (by omega)]
              simp only [Prod.mk.injEq]
              omega
            · rw [if_neg g5]
              by_cases g6 : a / 16 = 4
              · rw [if_pos g6]
                intro hh
                injection hh with h2
                subst h2
                simp only [encodeOp, nnOf, nnnOf]
                rw [land255, left_bit_lor 4 (a % 16) (by omega) (by omega)]
                simp only [Prod.mk.injEq]
                omega
              · rw [if_neg g6]
                by_cases g7 : a / 16 = 5 ∧ b % 16 = 0
                · rw [if_pos g7]
                  intro hh
                  injection hh with h2
                  subst h2
                  simp only [encodeOp, nnOf, nnnOf]
                  rw [left_bit_lor 5 (a % 16) (by omega) (by omega), left_bit_eq (b / 16) (by omega)]
                  simp only [Prod.mk.injEq]
                  omega
                · rw [if_neg g7]
                  by_cases g8 : a / 16 = 6
                  · rw [if_pos g8]
                    intro hh
                    injection hh with h2
                    subst h2
                    simp only [encodeOp, nnOf, nnnOf]
                    rw [land255, left_bit_lor 6 (a % 16) (by omega) (by omega)]
                    simp only [Prod.mk.injEq]
                    omega
                  · rw [if_neg g8]
                    by_cases g9 : a / 16 = 7
                    · rw [if_pos g9]
                      intro hh
                      injection hh with h2
                      subst h2
                      simp only [encodeOp, nnOf, nnnOf]
                      rw [land255, left_bit_lor 7 (a % 16) (by omega) (by omega)]
                      simp only [Prod.mk.injEq]
                      omega
                    · rw [if_neg g9]
                      by_cases g10 : a / 16 = 8 ∧ b % 16 = 0
                      · rw [if_pos g10]
                        intro hh
                        injection hh with h2
                        subst h2
                        simp only [encodeOp, nnOf, nnnOf]
                        rw [left_bit_lor 8 (a % 16) (by omega) (by omega), left_bit_eq (b / 16) (by omega)]
                        simp only [Prod.mk.injEq]
                        omega
                      · rw [if_neg g10]
                        by_cases g11 : a / 16 = 8 ∧ b % 16 = 1
                        · rw [if_pos g11]
                          intro hh
                          injection hh with h2
                          subst h2
                          simp only [encodeOp, nnOf, nnnOf]
                          rw [left_bit_lor 8 (a % 16) (by omega) (by omega),
                            left_bit_lor (b / 16) 0x01 (by omega) (by omega)]
                          simp only [Prod.mk.injEq]
                          omega
                        · rw [if_neg g11]
                          by_cases g12 : a / 16 = 8 ∧ b % 16 = 2
                          · rw [if_pos g12]
                            intro hh
                            injection hh with h2
                            subst h2
                            simp only [encodeOp, nnOf, nnnOf]
                            rw [left_bit_lor 8 (a % 16) (by omega) (by omega),
                              left_bit_lor (b / 16) 0x02 (by omega) (by omega)]
                            simp only [Prod.mk.injEq]
                            omega
                          · rw [if_neg g12]
                            by_cases g13 : a / 16 = 8 ∧ b % 16 = 3
                            · rw [if_pos g13]
                              intro hh
                              injection hh with h2
                              subst h2
                              simp only [encodeOp, nnOf, nnnOf]
                              rw [left_bit_lor 8 (a % 16) (by omega) (by omega),
                                left_bit_lor (b / 16) 0x03 (by omega) (by omega)]
                              simp only [Prod.mk.injEq]
                              omega
                            · rw [if_neg g13]
                              by_cases g14 : a / 16 = 8 ∧ b % 16 = 4
                              · rw [if_pos g14]
                                intro hh
                                injection hh with h2
                                subst h2
                                simp only [encodeOp, nnOf, nnnOf]
                                rw [left_bit_lor 8 (a % 16) (by omega) (by omega),
                                  left_bit_lor (b / 16) 0x04 (by omega) (by omega)]
                                simp only [Prod.mk.injEq]
                                omega
                              · rw [if_neg g14]
                                by_cases g15 : a / 16 = 8 ∧ b % 16 = 5
                                · rw [if_pos g15]
                                  intro hh
                                  injection hh with h2
                                  subst h2
                                  simp only [encodeOp, nnOf, nnnOf]
                                  rw [left_bit_lor 8 (a % 16) (by omega) (by omega),
                                    left_bit_lor (b / 16) 0x05 (by omega) (by omega)]
                                  simp only [Prod.mk.injEq]
                                  omega
                                · rw [if_neg g15]
                                  by_cases g16 : a / 16 = 8 ∧ b % 16 = 6
                                  · rw [if_pos g16]
                                    intro hh
                                    injection hh with h2
                                    subst h2
                                    simp only [encodeOp, nnOf, nnnOf]
                                    rw [left_bit_lor 8 (a % 16) (by omega) (by omega),
                                      left_bit_lor (b / 16) 0x06 (by omega) (by omega)]
                                    simp only [Prod.mk.injEq]
                                    omega
                                  · rw [if_neg g16]
                                    by_cases g17 : a / 16 = 8 ∧ b % 16 = 7
                                    · rw [if_pos g17]
                                      intro hh
                                      injection hh with h2
                                      subst h2
                                      simp only [encodeOp, nnOf, nnnOf]
                                      rw [left_bit_lor 8 (a % 16) (by omega) (by omega),
                                        left_bit_lor (b / 16) 0x07 (by omega) (by omega)]
                                      simp only [Prod.mk.injEq]
                                      omega
                                    · rw [if_neg g17]
                                      by_cases g18 : a / 16 = 8 ∧ b % 16 = 14
                                      · rw [if_pos g18]
                                        intro hh
                                        injection hh with h2
                                        subst h2
                                        simp only [encodeOp, nnOf, nnnOf]
                                        rw [left_bit_lor 8 (a % 16) (by omega) (by omega),
                                          left_bit_lor (b / 16) 0x0E (by omega) (by omega)]
                                        simp only [Prod.mk.injEq]
                                        omega
                                      · rw [if_neg g18]
                                        by_cases g19 : a / 16 = 9 ∧ b % 16 = 0
                                        · rw [if_pos g19]
                                          intro hh
                                          injection hh with h2
                                          subst h2
                                          simp only [encodeOp, nnOf, nnnOf]
                                          rw [left_bit_lor 9 (a % 16) (by omega) (by omega), left_bit_eq (b / 16) (by omega)]
                                          simp only [Prod.mk.injEq]
                                          omega
                                        · rw [if_neg g19]
                                          by_cases g20 : a / 16 = 10
                                          · rw [if_pos g20]
                                            intro hh
                                            injection hh with h2
                                            subst h2
                                            simp only [encodeOp, nnOf, nnnOf]
                                            rw [land4095, shiftRight8,
                                              left_bit_lor 0xA ((a * 256 + b) % 4096 / 256 % 256) (by omega) (by omega)]
                                            simp only [Prod.mk.injEq]
                                            omega
                                          · rw [if_neg g20]
                                            by_cases g21 : a / 16 = 11
                                            · rw [if_pos g21]
                                              intro hh
                                              injection hh with h2
                                              subst h2
                                              simp only [encodeOp, nnOf, nnnOf]
                                              rw [land4095, shiftRight8,
                                                left_bit_lor 0xB ((a * 256 + b) % 4096 / 256 % 256) (by omega) (by omega)]
                                              simp only [Prod.mk.injEq]
                                              omega
                                            · rw [if_neg g21]
                                              by_cases g22 : a / 16 = 12
                                              · rw [if_pos g22]
                                                intro hh
                                                injection hh with h2
                                                subst h2
                                                simp only [encodeOp, nnOf, nnnOf]
                                                rw [land255, left_bit_lor 0xC (a % 16) (by omega) (by omega)]
                                                simp only [Prod.mk.injEq]
                                                omega
                                              · rw [if_neg g22]
                                                by_cases g23 : a / 16 = 13
                                                · rw [if_pos g23]
                                                  intro hh
                                                  injection hh with h2
                                                  subst h2
                                                  simp only [encodeOp, nnOf, nnnOf]
                                                  rw [left_bit_lor 0xD (a % 16) (by omega) (by omega),
                                                    left_bit_lor (b / 16) (b % 16) (by omega) (by omega)]
                                                  simp only [Prod.mk.injEq]
                                                  omega
                                                · rw [if_neg g23]
                                                  by_cases g24 : a / 16 = 14 ∧ b / 16 = 9 ∧ b % 16 = 14
                                                  · rw [if_pos g24]
                                                    intro hh
                                                    injection hh with h2
                                                    subst h2
                                                    simp only [encodeOp, nnOf, nnnOf]
                                                    rw [left_bit_lor 0xE (a % 16) (by omega) (by omega)]
                                                    simp only [Prod.mk.injEq]
                                                    omega
                                                  · rw [if_neg g24]
                                                    by_cases g25 : a / 16 = 14 ∧ b / 16 = 10 ∧ b % 16 = 1
                                                    · rw [if_pos g25]
                                                      intro hh
                                                      injection hh with h2
                                                      subst h2
                                                      simp only [encodeOp, nnOf, nnnOf]
                                                      rw [left_bit_lor 0xE (a % 16) (by omega) (by omega)]
                                                      simp only [Prod.mk.injEq]
                                                      omega
                                                    · rw [if_neg g25]
                                                      by_cases g26 : a / 16 = 15 ∧ b / 16 = 0 ∧ b % 16 = 7
                                                      · rw [if_pos g26]
                                                        intro hh
                                                        injection hh with h2
                                                        subst h2
                                                        simp only [encodeOp, nnOf, nnnOf]
                                                        rw [left_bit_lor 0xF (a % 16) (by omega) (by omega)]
                                                        simp only [Prod.mk.injEq]
                                                        omega
                                                      · rw [if_neg g26]
                                                        by_cases g27 : a / 16 = 15 ∧ b / 16 = 0 ∧ b % 16 = 10
                                                        · rw [if_pos g27]
                                                          intro hh
                                                          injection hh with h2
                                                          subst h2
                                                          simp only [encodeOp, nnOf, nnnOf]
                                                          rw [left_bit_lor 0xF (a % 16) (by omega) (by omega)]
                                                          simp only [Prod.mk.injEq]
                                                          omega
                                                        · rw [if_neg g27]
                                                          by_cases g28 : a / 16 = 15 ∧ b / 16 = 1 ∧ b % 16 = 5
                                                          · rw [if_pos g28]
                                                            intro hh
                                                            injection hh with h2
                                                            subst h2
                                                            simp only [encodeOp, nnOf, nnnOf]
                                                            rw [left_bit_lor 0xF (a % 16) (by omega) (by omega)]
                                                            simp only [Prod.mk.injEq]
                                                            omega
                                                          · rw [if_neg g28]
                                                            by_cases g29 : a / 16 = 15 ∧ b / 16 = 1 ∧ b % 16 = 8
                                                            · rw [if_pos g29]
                                                              intro hh
                                                              injection hh with h2
                                                              subst h2
                                                              simp only [encodeOp, nnOf, nnnOf]
                                                              rw [left_bit_lor 0xF (a % 16) (by omega) (by omega)]
                                                              simp only [Prod.mk.injEq]
                                                              omega
                                                            · rw [if_neg g29]
                                                              by_cases g30 : a / 16 = 15 ∧ b / 16 = 1 ∧ b % 16 = 14
                                                              · rw [if_pos g30]
                                                                intro hh
                                                                injection hh with h2
                                                                subst h2
                                                                simp only [encodeOp, nnOf, nnnOf]
                                                                rw [left_bit_lor 0xF (a % 16) (by omega) (by omega)]
                                                                simp only [Prod.mk.injEq]
                                                                omega
                                                              · rw [if_neg g30]
                                                                by_cases g31 : a / 16 = 15 ∧ b / 16 = 2 ∧ b % 16 = 9
                                                                · rw [if_pos g31]
                                                                  intro hh
                                                                  injection hh with h2
                                                                  subst h2
                                                                  simp only [encodeOp, nnOf, nnnOf]
                                                                  rw [left_bit_lor 0xF (a % 16) (by omega) (by omega)]
                                                                  simp only [Prod.mk.injEq]
                                                                  omega
                                                                · rw [if_neg g31]
                                                                  by_cases g32 : a / 16 = 15 ∧ b / 16 = 3 ∧ b % 16 = 3
                                                                  · rw [if_pos g32]
                                                                    intro hh
                                                                    injection hh with h2
                                                                    subst h2
                                                                    simp only [encodeOp, nnOf, nnnOf]
                                                                    rw [left_bit_lor 0xF (a % 16) (by omega) (by omega)]
                                                                    simp only [Prod.mk.injEq]
                                                                    omega
                                                                  · rw [if_neg g32]
                                                                    by_cases g33 : a / 16 = 15 ∧ b / 16 = 5 ∧ b % 16 = 5
                                                                    · rw [if_pos g33]
                                                                      intro hh
                                                                      injection hh with h2
                                                                      subst h2
                                                                      simp only [encodeOp, nnOf, nnnOf]
                                                                      rw [left_bit_lor 0xF (a % 16) (by omega) (by omega)]
                                                                      simp only [Prod.mk.injEq]
                                                                      omega
                                                                    · rw [if_neg g33]
                                                                      by_cases g34 : a / 16 = 15 ∧ b / 16 = 6 ∧ b % 16 = 5
                                                                      · rw [if_pos g34]
                                                                        intro hh
                                                                        injection hh with h2
                                                                        subst h2
                                                                        simp only [encodeOp, nnOf, nnnOf]
                                                                        rw [left_bit_lor 0xF (a % 16) (by omega) (by omega)]
                                                                        simp only [Prod.mk.injEq]
                                                                        omega
                                                                      · rw [if_neg g34]
                                                                        intro hh
                                                                        exact Except.noConfusion hh

/-- Opcode direction of the codec round-trip: every opcode with valid
field ranges decodes back from its encoding, apart from the three
exceptional values `_00E0` (mis-encoded as 0x000E by the source),
`_0NNN 0xE0` and `_0NNN 0xEE` (whose encodings 0x00E0/0x00EE decode to
`_00E0`/`_00EE` by match priority). -/
theorem decode_encodeOp (op : OpCode) (hv : validOp op)
    (hn1 : op ≠ OpCode._00E0) (hn2 : op ≠ OpCode._0NNN 0xE0)
    (hn3 : op ≠ OpCode._0NNN 0xEE) :
    decodeOp (encodeOp op).1 (encodeOp op).2 = Except.ok op := by
  cases op with
  | _00E0 => exact absurd rfl hn1
  | _00EE => exact rt_00EE
  | _0NNN nnn =>
    exact rt_0NNN nnn hv (fun hq => hn2 (by rw [hq])) (fun hq => hn3 (by rw [hq]))
  | _1NNN nnn => exact rt_1NNN nnn hv
  | _2NNN nnn => exact rt_2NNN nnn hv
  | _3XNN x nn => exact rt_3XNN x nn hv.1 hv.2
  | _4XNN x nn => exact rt_4XNN x nn hv.1 hv.2
  | _5XY0 x y => exact rt_5XY0 x y hv.1 hv.2
  | _6XNN x nn => exact rt_6XNN x nn hv.1 hv.2
  | _7XNN x nn => exact rt_7XNN x nn hv.1 hv.2
  | _8XY0 x y => exact rt_8XY0 x y hv.1 hv.2
  | _8XY1 x y => exact rt_8XY1 x y hv.1 hv.2
  | _8XY2 x y => exact rt_8XY2 x y hv.1 hv.2
  | _8XY3 x y => exact rt_8XY3 x y hv.1 hv.2
  | _8XY4 x y => exact rt_8XY4 x y hv.1 hv.2
  | _8XY5 x y => exact rt_8XY5 x y hv.1 hv.2
  | _8XY6 x y => exact rt_8XY6 x y hv.1 hv.2
  | _8XY7 x y => exact rt_8XY7 x y hv.1 hv.2
  | _8XYE x y => exact rt_8XYE x y hv.1 hv.2
  | _9XY0 x y => exact rt_9XY0 x y hv.1 hv.2
  | _ANNN nnn => exact rt_ANNN nnn hv
  | _BNNN nnn => exact rt_BNNN nnn hv
  | _CXNN x nn => exact rt_CXNN x nn hv.1 hv.2
  | _DXYN x y n => exact rt_DXYN x y n hv.1 hv.2.1 hv.2.2
  | _EX9E x => exact rt_EX9E x hv
  | _EXA1 x => exact rt_EXA1 x hv
  | _FX07 x => exact rt_FX07 x hv
  | _FX0A x => exact rt_FX0A x hv
  | _FX15 x => exact rt_FX15 x hv
  | _FX18 x => exact rt_FX18 x hv
  | _FX1E x => exact rt_FX1E x hv
  | _FX29 x => exact rt_FX29 x hv
  | _FX33 x => exact rt_FX33 x hv
  | _FX55 x => exact rt_FX55 x hv
  | _FX65 x => exact rt_FX65 x hv

/-- C1, counterexample: the claim fails as stated.  Encoding the opcode
`_00E0` yields the byte pair (0x00, 0x0E) (the source writes
`(left_bit(0) & 0, 0xE)`), and decoding that pair yields `_0NNN 0x00E`,
not `_00E0`; so `decode(encode(op)) = op` fails at the valid opcode
`op = _00E0`, and symmetrically `encode(decode(w)) = w` fails at the word
w = 0x00E0. -/
theorem c1_codec_round_trip_cex :
    encodeOp OpCode._00E0 = (0x00, 0x0E)
    ∧ decodeOp (encodeOp OpCode._00E0).1 (encodeOp OpCode._00E0).2
        = Except.ok (OpCode._0NNN 0x00E)
    ∧ decodeOp (encodeOp OpCode._00E0).1 (encodeOp OpCode._00E0).2
        ≠ Except.ok OpCode._00E0
    ∧ decodeOp 0x00 0xE0 = Except.ok OpCode._00E0
    ∧ encodeOp OpCode._00E0 ≠ (0x00, 0xE0) := by
  refine ⟨by decide, by decide, by decide, by decide, by decide⟩

/-- C1 (amended): the codec is bidirectionally inverse away from the
`00E0` encoding slip and the `0NNN` overlap: (1) every opcode with
fields in valid ranges other than `_00E0`, `_0NNN 0xE0` and `_0NNN 0xEE`
decodes back from its 2-byte encoding; (2) every 16-bit word (given as
two bytes) other than 0x00E0 on which decode succeeds is reproduced by
encoding the decoded opcode. -/
theorem c1_codec_round_trip_amended :
    (∀ op : OpCode, validOp op →
        op ≠ OpCode._00E0 → op ≠ OpCode._0NNN 0xE0 → op ≠ OpCode._0NNN 0xEE →
        decodeOp (encodeOp op).1 (encodeOp op).2 = Except.ok op)
    ∧ (∀ a b : Nat, a < 256 → b < 256 → ¬(a = 0 ∧ b = 0xE0) →
        ∀ op : OpCode, decodeOp a b = Except.ok op → encodeOp op = (a, b)) := by
  constructor
  · intro op hv h1 h2 h3
    exact decode_encodeOp op hv h1 h2 h3
  · intro a b ha hb hne op h
    exact encode_decodeOp a b ha hb hne op h

/-- Closed witness instantiating both directions of the amended C1
round-trip at concrete inputs. -/
theorem c1_codec_round_trip_amended_witness :
    decodeOp (encodeOp (OpCode._DXYN 1 2 3)).1 (encodeOp (OpCode._DXYN 1 2 3)).2
      = Except.ok (OpCode._DXYN 1 2 3)
    ∧ encodeOp (OpCode._1NNN 0x234) = (0x12, 0x34) := by
  constructor
  · exact c1_codec_round_trip_amended.1 (OpCode._DXYN 1 2 3) (by decide)
      (by decide) (by decide) (by decide)
  · exact c1_codec_round_trip_amended.2 0x12 0x34 (by decide) (by decide)
      (by decide) (OpCode._1NNN 0x234) (by decide)


/-! ### List helper lemmas -/

theorem getD_set_self (l : List Nat) (i v : Nat) (h : i < l.length) :
    (l.set i v).getD i 0 = v := by
  rw [List.getD_eq_getElem?_getD, List.getElem?_set]
  simp [h]

theorem getD_set_ne (l : List Nat) (i j v : Nat) (h : i ≠ j) :
    (l.set i v).getD j 0 = l.getD j 0 := by
  rw [List.getD_eq_getElem?_getD, List.getElem?_set, if_neg h,
    ← List.getD_eq_getElem?_getD]

theorem set_getD_self (l : List Nat) (i : Nat) (h : i < l.length) :
    l.set i (l.getD i 0) = l := by
  apply List.ext_getElem?
  intro j
  rw [List.getElem?_set]
  by_cases hij : i = j
  · subst hij
    rw [if_pos rfl, if_pos h, List.getD_eq_getElem?_getD, List.getElem?_eq_getElem h]
    rfl
  · rw [if_neg hij]

/-! ### Screen (`src/core/src/screen.rs`) -/

/-- `struct Screen`: the 256-byte packed 1-bpp framebuffer (`buffer`,
one `Nat` per byte) and the `pending_draw` dirty flag. -/
structure Screen where
  buffer : List Nat
  pending_draw : Bool
  deriving DecidableEq, Repr

/-- `Screen::new()`: a zeroed 256-byte buffer, `pending_draw = false`. -/
def Screen.new : Screen :=
  { buffer := List.replicate 256 0, pending_draw := false }

/-- `Screen::clear()`: `self.buffer.borrow_mut().fill(0)`.  The
`pending_draw` flag is not touched. -/
def Screen.clear (s : Screen) : Screen :=
  { s with buffer := s.buffer.map (fun _ => 0) }

/-- The flattened iteration space of `draw_sprite`'s two nested loops:
pairs `(row, bit)` for `row in 0..n` and `bit in 0..8`, in source
order. -/
def drawPairs (n : Nat) : List (Nat × Nat) :=
  (List.range n).flatMap (fun r => (List.range 8).map (fun b => (r, b)))

/-- The loop body of `Screen::draw_sprite` over the flattened iteration
space.  `xm` is the wrapped origin column (`x % 64`); `ym` is the
wrapped origin row premultiplied by the screen width
(`(y as u16 % 32) * 64`), exactly as the source computes it.  The
source's early `return false` on an out-of-range byte index stops the
recursion with flag `false` and the buffer as mutated so far. -/
def drawGo (xm ym : Nat) (sprite : List Nat) :
    List (Nat × Nat) → List Nat → Bool → Bool × List Nat
  | [], buffer, was_unset => (was_unset, buffer)
  | (row, bit) :: rest, buffer, was_unset =>
    let row_offset := row * 64
    let index := (ym + row_offset + (xm + bit)) / 8
    let bit_offset := (xm + bit) % 8
    let mask := 1 <<< (7 - bit_offset)
    if index ≥ buffer.length then (false, buffer)
    else
      let val_before := buffer.getD index 0 &&& mask != 0
      let sprite_mask := 1 <<< (7 - bit)
      let sprite_val := (sprite.getD row 0 &&& sprite_mask) >>> (7 - bit)
      let sprite_adjusted := sprite_val <<< (7 - bit_offset)
      let buffer2 := buffer.set index (buffer.getD index 0 ^^^ (mask &&& sprite_adjusted))
      let val_after := buffer2.getD index 0 &&& mask != 0
      drawGo xm ym sprite rest buffer2 (was_unset || (val_before && !val_after))

/-- `Screen::draw_sprite(x, y, sprite)` from `src/core/src/screen.rs`:
marks `pending_draw = true` on entry (via `replace(true)`), wraps only
the origin, then XOR-blits row by row, bit by bit.  Returns the
collision flag together with the updated screen. -/
def Screen.draw_sprite (s : Screen) (x y : Nat) (sprite : List Nat) :
    Bool × Screen :=
  let s1 : Screen := { s with pending_draw := true }
  let xm := x % 64
  let ym := (y % 32) * 64
  let r := drawGo xm ym sprite (drawPairs sprite.length) s1.buffer false
  (r.1, { s1 with buffer := r.2 })

/-- Reference variant for C6, modelled from the spec's words: identical
to `drawGo` except that on an out-of-range byte index it returns "the
collision flag accumulated so far" instead of the source's literal
`false`. -/
def drawGoSpec (xm ym : Nat) (sprite : List Nat) :
    List (Nat × Nat) → List Nat → Bool → Bool × List Nat
  | [], buffer, was_unset => (was_unset, buffer)
  | (row, bit) :: rest, buffer, was_unset =>
    let row_offset := row * 64
    let index := (ym + row_offset + (xm + bit)) / 8
    let bit_offset := (xm + bit) % 8
    let mask := 1 <<< (7 - bit_offset)
    if index ≥ buffer.length then (was_unset, buffer)
    else
      let val_before := buffer.getD index 0 &&& mask != 0
      let sprite_mask := 1 <<< (7 - bit)
      let sprite_val := (sprite.getD row 0 &&& sprite_mask) >>> (7 - bit)
      let sprite_adjusted := sprite_val <<< (7 - bit_offset)
      let buffer2 := buffer.set index (buffer.getD index 0 ^^^ (mask &&& sprite_adjusted))
      let val_after := buffer2.getD index 0 &&& mask != 0
      drawGoSpec xm ym sprite rest buffer2 (was_unset || (val_before && !val_after))

/-- Spec-side wrapper around `drawGoSpec`, mirroring
`Screen.draw_sprite`. -/
def Screen.draw_sprite_ref (s : Screen) (x y : Nat) (sprite : List Nat) :
    Bool × Screen :=
  let s1 : Screen := { s with pending_draw := true }
  let xm := x % 64
  let ym := (y % 32) * 64
  let r := drawGoSpec xm ym sprite (drawPairs sprite.length) s1.buffer false
  (r.1, { s1 with buffer := r.2 })

theorem mem_drawPairs {n r b : Nat} :
    (r, b) ∈ drawPairs n ↔ r < n ∧ b < 8 := by
  simp [drawPairs, List.mem_flatMap, List.mem_range, List.mem_map, Prod.ext_iff]

/-- Once some iteration of the draw loop is out of range, the loop
returns collision flag `false`, whatever was accumulated. -/
theorem drawGo_abort (xm ym : Nat) (sprite : List Nat) :
    ∀ (ps : List (Nat × Nat)) (buffer : List Nat) (wu : Bool),
      (∃ p ∈ ps, (ym + p.1 * 64 + (xm + p.2)) / 8 ≥ buffer.length) →
      (drawGo xm ym sprite ps buffer wu).1 = false := by
  intro ps
  induction ps with
  | nil =>
    rintro buffer wu ⟨p, hp, _⟩
    cases hp
  | cons hd tl ih =>
    rintro buffer wu ⟨p, hp, hge⟩
    obtain ⟨row, bit⟩ := hd
    simp only [drawGo]
    split
    · rfl
    · rename_i hlt
      apply ih
      rcases List.mem_cons.mp hp with heq | hp2
      · subst heq
        exact absurd hge (by simpa using hlt)
      · refine ⟨p, hp2, ?_⟩
        simpa [List.length_set] using hge


/-- C6, counterexample: the claim fails as stated.  Drawing the one-byte
sprite `[0xFF]` at (57, 31) on a buffer whose last byte is 0xFF XORs
away seven set pixels (a collision by the source's own accounting) and
then hits byte index 256 at bit 7, aborting — yet the call returns
`false`, not the accumulated collision flag (the spec-modelled variant
`Screen.draw_sprite_ref`, which returns the accumulated flag, yields
`true` on the same input). -/
theorem c6_draw_abort_cex :
    (Screen.draw_sprite ⟨(List.replicate 256 0).set 255 0xFF, false⟩ 57 31 [0xFF]).1 = false
    ∧ (Screen.draw_sprite ⟨(List.replicate 256 0).set 255 0xFF, false⟩ 57 31 [0xFF]).2.buffer
        = (List.replicate 256 0).set 255 0x80
    ∧ (Screen.draw_sprite_ref ⟨(List.replicate 256 0).set 255 0xFF, false⟩ 57 31 [0xFF]).1
        = true := by
  refine ⟨by decide, by decide, by decide⟩

/-- C6 (amended): a draw whose iteration space reaches a byte index
beyond the framebuffer aborts there without faulting (the model is a
total function) and returns `false` unconditionally, discarding any
collision flag accumulated before the abort. -/
theorem c6_draw_abort_amended (s : Screen) (x y : Nat) (sprite : List Nat)
    (h : ∃ row < sprite.length, ∃ bit < 8,
      ((y % 32) * 64 + row * 64 + (x % 64 + bit)) / 8 ≥ s.buffer.length) :
    (s.draw_sprite x y sprite).1 = false := by
  obtain ⟨row, hrow, bit, hbit, hge⟩ := h
  show (drawGo (x % 64) ((y % 32) * 64) sprite (drawPairs sprite.length)
      s.buffer false).1 = false
  exact drawGo_abort _ _ _ _ _ _ ⟨(row, bit), mem_drawPairs.mpr ⟨hrow, hbit⟩, hge⟩

/-- Closed witness for the amended C6 statement at a concrete
out-of-range draw. -/
theorem c6_draw_abort_amended_witness :
    (∃ row < ([0xFF] : List Nat).length, ∃ bit < 8,
      ((31 % 32) * 64 + row * 64 + (57 % 64 + bit)) / 8 ≥ Screen.new.buffer.length)
    ∧ (Screen.new.draw_sprite 57 31 [0xFF]).1 = false :=
  ⟨by decide, c6_draw_abort_amended Screen.new 57 31 [0xFF] (by decide)⟩


/-! ### XOR-update algebra for the double-draw law (C7) -/

/-- One XOR-update `buffer[i] ^= m` (out-of-range `i` is a no-op, as
with `List.set`). -/
def applyOne (b : List Nat) (q : Nat × Nat) : List Nat :=
  b.set q.1 (b.getD q.1 0 ^^^ q.2)

/-- A sequence of XOR-updates, applied left to right. -/
def applyMasks : List (Nat × Nat) → List Nat → List Nat
  | [], b => b
  | q :: rest, b => applyMasks rest (applyOne b q)

theorem applyOne_length (b : List Nat) (q : Nat × Nat) :
    (applyOne b q).length = b.length := by
  simp [applyOne]

theorem applyMasks_length (L : List (Nat × Nat)) :
    ∀ b : List Nat, (applyMasks L b).length = b.length := by
  induction L with
  | nil => intro b; rfl
  | cons q rest ih =>
    intro b
    simp only [applyMasks]
    rw [ih, applyOne_length]

theorem applyOne_comm (b : List Nat) (p q : Nat × Nat) :
    applyOne (applyOne b p) q = applyOne (applyOne b q) p := by
  obtain ⟨i, m⟩ := p
  obtain ⟨j, m'⟩ := q
  by_cases hij : i = j
  · subst hij
    by_cases hlen : i < b.length
    · simp only [applyOne, List.set_set, getD_set_self _ _ _ hlen]
      rw [Nat.xor_assoc, Nat.xor_assoc, Nat.xor_comm m m']
    · have h1 : b.set i (b.getD i 0 ^^^ m) = b :=
        List.set_eq_of_length_le (by omega)
      have h2 : b.set i (b.getD i 0 ^^^ m') = b :=
        List.set_eq_of_length_le (by omega)
      simp only [applyOne, h1, h2]
  · simp only [applyOne, getD_set_ne _ _ _ _ hij, getD_set_ne _ _ _ _ (Ne.symm hij)]
    exact List.set_comm _ _ _ hij

theorem applyOne_invol (b : List Nat) (p : Nat × Nat) :
    applyOne (applyOne b p) p = b := by
  obtain ⟨i, m⟩ := p
  by_cases hlen : i < b.length
  · simp only [applyOne, List.set_set, getD_set_self _ _ _ hlen]
    rw [Nat.xor_assoc, Nat.xor_self, Nat.xor_zero]
    exact set_getD_self b i hlen
  · have h1 : b.set i (b.getD i 0 ^^^ m) = b :=
      List.set_eq_of_length_le (by omega)
    simp only [applyOne, h1]

theorem applyMasks_applyOne (L : List (Nat × Nat)) :
    ∀ (b : List Nat) (p : Nat × Nat),
      applyMasks L (applyOne b p) = applyOne (applyMasks L b) p := by
  induction L with
  | nil => intro b p; rfl
  | cons q rest ih =>
    intro b p
    simp only [applyMasks]
    rw [applyOne_comm b p q, ih]

/-- Applying the same sequence of XOR-updates twice restores the
buffer. -/
theorem applyMasks_invol (L : List (Nat × Nat)) :
    ∀ b : List Nat, applyMasks L (applyMasks L b) = b := by
  induction L with
  | nil => intro b; rfl
  | cons q rest ih =>
    intro b
    simp only [applyMasks]
    rw [applyMasks_applyOne, ih, applyOne_invol]


/-- Byte index targeted by iteration `p = (row, bit)` of the draw loop. -/
def pixIdx (xm ym : Nat) (p : Nat × Nat) : Nat :=
  (ym + p.1 * 64 + (xm + p.2)) / 8

/-- Single-bit mask targeted by iteration `p` within its byte. -/
def pixMask (xm : Nat) (p : Nat × Nat) : Nat :=
  1 <<< (7 - (xm + p.2) % 8)

/-- The value XORed into the byte at iteration `p`
(`mask & sprite_adjusted` in the source). -/
def updMask (xm : Nat) (sprite : List Nat) (p : Nat × Nat) : Nat :=
  pixMask xm p
    &&& (((sprite.getD p.1 0 &&& (1 <<< (7 - p.2))) >>> (7 - p.2)) <<< (7 - (xm + p.2) % 8))

/-- The (index, XOR value) pairs of a run of the draw loop; they depend
only on the origin and the sprite, never on the buffer. -/
def updList (xm ym : Nat) (sprite : List Nat) :
    List (Nat × Nat) → List (Nat × Nat)
  | [] => []
  | p :: tl => (pixIdx xm ym p, updMask xm sprite p) :: updList xm ym sprite tl

/-- The masked sprite value at any iteration is the iteration's mask or
zero. -/
theorem updMask_cases (xm : Nat) (sprite : List Nat) (p : Nat × Nat) :
    updMask xm sprite p = 0 ∨ updMask xm sprite p = pixMask xm p := by
  have hsv : (sprite.getD p.1 0 &&& (1 <<< (7 - p.2))) >>> (7 - p.2) = 0
      ∨ (sprite.getD p.1 0 &&& (1 <<< (7 - p.2))) >>> (7 - p.2) = 1 := by
    have h := Nat.and_two_pow (sprite.getD p.1 0) (7 - p.2)
    rw [Nat.shiftLeft_eq, Nat.one_mul] at *
    rw [h, Nat.shiftRight_eq_div_pow, Nat.mul_div_cancel _ (Nat.two_pow_pos _)]
    cases (sprite.getD p.1 0).testBit (7 - p.2) <;> simp
  rcases hsv with h | h
  · left
    simp only [updMask]
    rw [h]
    simp
  · right
    simp only [updMask]
    rw [h]
    simp only [pixMask]
    exact Nat.and_self _

/-- A buffer byte masked by a single-bit mask is the mask or zero. -/
theorem and_pixMask_cases (v : Nat) (xm : Nat) (p : Nat × Nat) :
    v &&& pixMask xm p = 0 ∨ v &&& pixMask xm p = pixMask xm p := by
  have h := Nat.and_two_pow v (7 - (xm + p.2) % 8)
  simp only [pixMask, Nat.shiftLeft_eq, Nat.one_mul]
  rw [h]
  cases (v.testBit (7 - (xm + p.2) % 8)) <;> simp

/-- `pixMask` is a power of two, hence nonzero. -/
theorem pixMask_pos (xm : Nat) (p : Nat × Nat) : 0 < pixMask xm p := by
  simp only [pixMask, Nat.shiftLeft_eq, Nat.one_mul]
  exact Nat.two_pow_pos _

/-- Under in-range indices, the buffer produced by the draw loop is the
original buffer with the loop's XOR-updates applied; in particular it
does not depend on the buffer's contents. -/
theorem drawGo_buffer (xm ym : Nat) (sprite : List Nat) :
    ∀ (ps : List (Nat × Nat)) (b : List Nat) (w : Bool),
      (∀ p ∈ ps, pixIdx xm ym p < b.length) →
      (drawGo xm ym sprite ps b w).2 = applyMasks (updList xm ym sprite ps) b := by
  intro ps
  induction ps with
  | nil => intro b w h; rfl
  | cons hd tl ih =>
    intro b w h
    obtain ⟨row, bit⟩ := hd
    have hin := h (row, bit) (List.mem_cons_self _ _)
    simp only [drawGo]
    rw [if_neg (by simpa [pixIdx] using Nat.not_le.mpr hin)]
    simp only [updList, applyMasks]
    rw [ih]
    · rfl
    · intro p hp
      simpa [List.length_set] using h p (List.mem_cons_of_mem _ hp)


/-- Unfolding lemma for one draw-loop iteration, phrased with the named
index/mask functions. -/
theorem drawGo_cons (xm ym : Nat) (sprite : List Nat) (row bit : Nat)
    (tl : List (Nat × Nat)) (b : List Nat) (w : Bool) :
    drawGo xm ym sprite ((row, bit) :: tl) b w
      = if pixIdx xm ym (row, bit) ≥ b.length then (false, b)
        else
          drawGo xm ym sprite tl
            (applyOne b (pixIdx xm ym (row, bit), updMask xm sprite (row, bit)))
            (w || ((b.getD (pixIdx xm ym (row, bit)) 0 &&& pixMask xm (row, bit) != 0)
              && !((applyOne b (pixIdx xm ym (row, bit), updMask xm sprite (row, bit))).getD
                    (pixIdx xm ym (row, bit)) 0 &&& pixMask xm (row, bit) != 0))) := by
  rfl

/-- A single XOR-update leaves alone any single-bit position it does not
target. -/
theorem applyOne_bit_ne (b : List Nat) (i m j u : Nat)
    (hdisj : j ≠ i ∨ u &&& m = 0) :
    (applyOne b (j, u)).getD i 0 &&& m = b.getD i 0 &&& m := by
  rcases hdisj with hne | hz
  · simp only [applyOne]
    rw [getD_set_ne _ _ _ _ hne]
  · by_cases hij : j = i
    · subst hij
      by_cases hlen : j < b.length
      · simp only [applyOne]
        rw [getD_set_self _ _ _ hlen, Nat.and_xor_distrib_right, hz, Nat.xor_zero]
      · simp only [applyOne]
        rw [List.set_eq_of_length_le (by omega)]
    · simp only [applyOne]
      rw [getD_set_ne _ _ _ _ hij]

/-- A single in-range XOR-update flips exactly its own bit. -/
theorem applyOne_bit_eq (b : List Nat) (i m u : Nat) (hlen : i < b.length)
    (hu : u &&& m = u) :
    (applyOne b (i, u)).getD i 0 &&& m = (b.getD i 0 &&& m) ^^^ u := by
  simp only [applyOne]
  rw [getD_set_self _ _ _ hlen, Nat.and_xor_distrib_right, hu]

/-- A run of XOR-updates from iterations that do not target the bit
`(i, m)` leaves that bit unchanged. -/
theorem applyMasks_bit_untouched (xm ym : Nat) (sprite : List Nat) :
    ∀ (ps : List (Nat × Nat)) (b : List Nat) (i m : Nat),
      (∀ q ∈ ps, pixIdx xm ym q ≠ i ∨ pixMask xm q &&& m = 0) →
      (applyMasks (updList xm ym sprite ps) b).getD i 0 &&& m
        = b.getD i 0 &&& m := by
  intro ps
  induction ps with
  | nil => intro b i m h; rfl
  | cons hd tl ih =>
    intro b i m h
    simp only [updList, applyMasks]
    rw [ih _ _ _ (fun q hq => h q (List.mem_cons_of_mem _ hq))]
    apply applyOne_bit_ne
    rcases h hd (List.mem_cons_self _ _) with hne | hz
    · exact Or.inl hne
    · right
      rcases updMask_cases xm sprite hd with h0 | hm
      · rw [h0, Nat.zero_and]
      · rw [hm, hz]

/-- Readout of a targeted bit after the full run of XOR-updates: given
pairwise disjoint targets, the bit of iteration `p` is flipped by
exactly `p`'s own sprite bit. -/
theorem applyMasks_bit (xm ym : Nat) (sprite : List Nat) :
    ∀ (ps : List (Nat × Nat)) (b : List Nat),
      (∀ p ∈ ps, pixIdx xm ym p < b.length) →
      ps.Pairwise (fun p q =>
        pixIdx xm ym p ≠ pixIdx xm ym q ∨ pixMask xm p &&& pixMask xm q = 0) →
      ∀ p ∈ ps,
        (applyMasks (updList xm ym sprite ps) b).getD (pixIdx xm ym p) 0
            &&& pixMask xm p
          = (b.getD (pixIdx xm ym p) 0 &&& pixMask xm p) ^^^ updMask xm sprite p := by
  intro ps
  induction ps with
  | nil =>
    intro b _ _ p hp
    cases hp
  | cons hd tl ih =>
    intro b hlen hpw p hp
    obtain ⟨hhd, htl⟩ := List.pairwise_cons.mp hpw
    simp only [updList, applyMasks]
    rcases List.mem_cons.mp hp with rfl | hptl
    · rw [applyMasks_bit_untouched xm ym sprite tl _ _ _
        (fun q hq => by
          rcases hhd q hq with hne | hz
          · exact Or.inl (Ne.symm hne)
          · exact Or.inr (by rw [Nat.and_comm]; exact hz))]
      apply applyOne_bit_eq
      · exact hlen p (List.mem_cons_self _ _)
      · rcases updMask_cases xm sprite p with h0 | hm
        · rw [h0, Nat.zero_and]
        · rw [hm]
          exact Nat.and_self _
    · rw [ih _ (fun q hq => by
          rw [applyOne_length]
          exact hlen q (List.mem_cons_of_mem _ hq)) htl p hptl]
      congr 1
      apply applyOne_bit_ne
      rcases hhd p hptl with hne | hz
      · exact Or.inl hne
      · right
        rcases updMask_cases xm sprite hd with h0 | hm
        · rw [h0, Nat.zero_and]
        · rw [hm, hz]


theorem list_any_congr {α : Type} {l : List α} {f g : α → Bool}
    (h : ∀ a ∈ l, f a = g a) : l.any f = l.any g := by
  induction l with
  | nil => rfl
  | cons hd tl ih =>
    simp only [List.any_cons]
    rw [h hd (List.mem_cons_self _ _),
      ih (fun a ha => h a (List.mem_cons_of_mem _ ha))]

/-- One iteration's contribution to the collision flag equals "the
targeted pixel was set and the sprite bit is set". -/
theorem contrib_eq (v m u : Nat) (hv : v &&& m = 0 ∨ v &&& m = m)
    (hu : u = 0 ∨ u = m) (hm : 0 < m) :
    ((v &&& m != 0) && !((v &&& m) ^^^ u != 0)) = ((v &&& m != 0) && (u != 0)) := by
  rcases hu with rfl | rfl
  · rcases hv with h | h <;> simp [h]
  · rcases hv with h | h <;> simp [h, Nat.xor_self, Nat.pos_iff_ne_zero.mp hm]

/-- Collision-flag characterization of the draw loop: with in-range,
pairwise-distinct targets, the returned flag is the accumulator ORed
with "some iteration hits a set pixel with a set sprite bit", read off
the initial buffer. -/
theorem drawGo_flag (xm ym : Nat) (sprite : List Nat) :
    ∀ (ps : List (Nat × Nat)) (b : List Nat) (w : Bool),
      (∀ p ∈ ps, pixIdx xm ym p < b.length) →
      ps.Pairwise (fun p q =>
        pixIdx xm ym p ≠ pixIdx xm ym q ∨ pixMask xm p &&& pixMask xm q = 0) →
      (drawGo xm ym sprite ps b w).1
        = (w || ps.any (fun p =>
            (b.getD (pixIdx xm ym p) 0 &&& pixMask xm p != 0)
            && (updMask xm sprite p != 0))) := by
  intro ps
  induction ps with
  | nil =>
    intro b w _ _
    simp [drawGo]
  | cons hd tl ih =>
    intro b w hlen hpw
    obtain ⟨row, bit⟩ := hd
    obtain ⟨hhd, htl⟩ := List.pairwise_cons.mp hpw
    have hin := hlen (row, bit) (List.mem_cons_self _ _)
    rw [drawGo_cons, if_neg_chip (by omega)]
    have hupd : updMask xm sprite (row, bit) &&& pixMask xm (row, bit)
        = updMask xm sprite (row, bit) := by
      rcases updMask_cases xm sprite (row, bit) with h0 | hm
      · rw [h0, Nat.zero_and]
      · rw [hm]
        exact Nat.and_self _
    rw [ih _ _
      (fun p hp => by
        rw [applyOne_length]
        exact hlen p (List.mem_cons_of_mem _ hp)) htl]
    rw [applyOne_bit_eq _ _ _ _ hin hupd]
    rw [contrib_eq _ _ _
      (and_pixMask_cases _ _ _)
      (updMask_cases xm sprite (row, bit)) (pixMask_pos _ _)]
    rw [list_any_congr (fun p hp => by
      rw [applyOne_bit_ne]
      rcases hhd p hp with hne | hz
      · exact Or.inl hne
      · right
        rcases updMask_cases xm sprite (row, bit) with h0 | hm
        · rw [h0, Nat.zero_and]
        · rw [hm, hz])]
    rw [List.any_cons, Bool.or_assoc]


theorem pixMask_and_pixMask (xm : Nat) (p q : Nat × Nat)
    (h : (xm + p.2) % 8 ≠ (xm + q.2) % 8) :
    pixMask xm p &&& pixMask xm q = 0 := by
  simp only [pixMask, Nat.shiftLeft_eq, Nat.one_mul]
  rw [Nat.and_two_pow, Nat.testBit_two_pow_of_ne (by omega)]
  simp

/-- The iterations of a draw targeting a `ym` that is a multiple of 8
(as `(y % 32) * 64` always is) touch pairwise distinct pixel bits:
different iterations have different byte indices or disjoint masks. -/
theorem drawPairs_pairwise (xm ym n : Nat) (hym : ym % 8 = 0) :
    (drawPairs n).Pairwise (fun p q =>
      pixIdx xm ym p ≠ pixIdx xm ym q ∨ pixMask xm p &&& pixMask xm q = 0) := by
  have hnd : (drawPairs n).Nodup := by
    rw [drawPairs, List.nodup_flatMap]
    constructor
    · intro r _
      exact (List.nodup_range 8).map
        (fun a b hab => by simpa using (Prod.mk.injEq _ _ _ _).mp hab |>.2)
    · apply (List.pairwise_lt_range n).imp
      intro r1 r2 hlt p hp1 hp2
      simp only [List.mem_map, List.mem_range] at hp1 hp2
      obtain ⟨b1, _, rfl⟩ := hp1
      obtain ⟨b2, _, heq⟩ := hp2
      have : r2 = r1 := ((Prod.mk.injEq _ _ _ _).mp heq).1
      omega
  refine hnd.imp_of_mem ?_
  intro p q hp hq hne
  obtain ⟨r1, b1⟩ := p
  obtain ⟨r2, b2⟩ := q
  obtain ⟨hr1, hb1⟩ := mem_drawPairs.mp hp
  obtain ⟨hr2, hb2⟩ := mem_drawPairs.mp hq
  by_cases hidx : pixIdx xm ym (r1, b1) = pixIdx xm ym (r2, b2)
  · right
    apply pixMask_and_pixMask
    simp only [pixIdx] at hidx
    simp only
    intro hmod
    have hrb : r1 = r2 ∧ b1 = b2 := by omega
    exact hne (by rw [hrb.1, hrb.2])
  · exact Or.inl hidx


/-- C7: a sprite XOR-drawn twice at the same position, with every
iteration in range, restores the framebuffer bit-for-bit; when the
target area was blank before the first draw, the first draw reports no
collision and the second draw reports a collision for any sprite with at
least one set bit (in the 8 drawn columns). -/
theorem c7_double_draw (s : Screen) (x y : Nat) (sprite : List Nat)
    (hin : ∀ row < sprite.length, ∀ bit < 8,
      ((y % 32) * 64 + row * 64 + (x % 64 + bit)) / 8 < s.buffer.length) :
    (((s.draw_sprite x y sprite).2).draw_sprite x y sprite).2.buffer = s.buffer
    ∧ ((∀ row < sprite.length, ∀ bit < 8,
          s.buffer.getD (((y % 32) * 64 + row * 64 + (x % 64 + bit)) / 8) 0
            &&& (1 <<< (7 - (x % 64 + bit) % 8)) = 0) →
        (s.draw_sprite x y sprite).1 = false
        ∧ ((∃ row < sprite.length, sprite.getD row 0 &&& 0xFF ≠ 0) →
            (((s.draw_sprite x y sprite).2).draw_sprite x y sprite).1 = true)) := by
  set xm := x % 64 with hxm
  set ym := (y % 32) * 64 with hym
  set ps := drawPairs sprite.length with hps
  have hlen : ∀ p ∈ ps, pixIdx xm ym p < s.buffer.length := by
    intro p hp
    obtain ⟨r, b⟩ := p
    obtain ⟨hr, hb⟩ := mem_drawPairs.mp hp
    exact hin r hr b hb
  have hpw : ps.Pairwise (fun p q =>
      pixIdx xm ym p ≠ pixIdx xm ym q ∨ pixMask xm p &&& pixMask xm q = 0) :=
    drawPairs_pairwise xm ym sprite.length (by omega)
  have hb1 : (s.draw_sprite x y sprite).2.buffer
      = applyMasks (updList xm ym sprite ps) s.buffer :=
    drawGo_buffer xm ym sprite ps s.buffer false hlen
  have hlen1 : ∀ p ∈ ps,
      pixIdx xm ym p < ((s.draw_sprite x y sprite).2.buffer).length := by
    intro p hp
    rw [hb1, applyMasks_length]
    exact hlen p hp
  refine ⟨?_, ?_⟩
  · have hb2 : (((s.draw_sprite x y sprite).2).draw_sprite x y sprite).2.buffer
        = applyMasks (updList xm ym sprite ps)
            ((s.draw_sprite x y sprite).2.buffer) :=
      drawGo_buffer xm ym sprite ps _ false hlen1
    rw [hb2, hb1, applyMasks_invol]
  · intro hblank
    have hblank2 : ∀ p ∈ ps,
        s.buffer.getD (pixIdx xm ym p) 0 &&& pixMask xm p = 0 := by
      intro p hp
      obtain ⟨r, b⟩ := p
      obtain ⟨hr, hb⟩ := mem_drawPairs.mp hp
      exact hblank r hr b hb
    refine ⟨?_, ?_⟩
    · have hf : (s.draw_sprite x y sprite).1
          = (false || ps.any (fun p =>
              (s.buffer.getD (pixIdx xm ym p) 0 &&& pixMask xm p != 0)
              && (updMask xm sprite p != 0))) :=
        drawGo_flag xm ym sprite ps s.buffer false hlen hpw
      rw [hf, Bool.false_or, List.any_eq_false]
      intro p hp
      rw [hblank2 p hp]
      simp
    · rintro ⟨row, hrow, hvrow⟩
      have hf2 : (((s.draw_sprite x y sprite).2).draw_sprite x y sprite).1
          = (false || ps.any (fun p =>
              ((s.draw_sprite x y sprite).2.buffer.getD (pixIdx xm ym p) 0
                  &&& pixMask xm p != 0)
              && (updMask xm sprite p != 0))) :=
        drawGo_flag xm ym sprite ps _ false hlen1 hpw
      rw [hf2, Bool.false_or, List.any_eq_true]
      -- pick the set bit of the sprite byte
      obtain ⟨t, ht⟩ := Nat.ne_zero_implies_bit_true (x := sprite.getD row 0 &&& 0xFF)
        (by simpa using hvrow)
      have ht8 : t < 8 := by
        by_contra hge
        rw [Nat.testBit_lt_two_pow] at ht
        · exact Bool.false_ne_true ht
        · calc sprite.getD row 0 &&& 0xFF ≤ 0xFF := Nat.and_le_right
            _ < 2 ^ 8 := by omega
            _ ≤ 2 ^ t := Nat.pow_le_pow_right (by omega) (by omega)
      have htv : (sprite.getD row 0).testBit t = true := by
        rw [Nat.testBit_and] at ht
        simp only [Bool.and_eq_true] at ht
        exact ht.1
      refine ⟨(row, 7 - t), mem_drawPairs.mpr ⟨hrow, by omega⟩, ?_⟩
      have hsv : (sprite.getD (row, 7 - t).1 0 &&& (1 <<< (7 - (row, 7 - t).2)))
          >>> (7 - (row, 7 - t).2) = 1 := by
        simp only
        have h7 : 7 - (7 - t) = t := by omega
        rw [h7, Nat.shiftLeft_eq, Nat.one_mul, Nat.and_two_pow, htv,
          Nat.shiftRight_eq_div_pow]
        simp [Nat.mul_div_cancel _ (Nat.two_pow_pos t)]
      have hupd : updMask xm sprite (row, 7 - t) = pixMask xm (row, 7 - t) := by
        rw [updMask, hsv]
        simp only [pixMask]
        exact Nat.and_self _
      have hbit : (s.draw_sprite x y sprite).2.buffer.getD
            (pixIdx xm ym (row, 7 - t)) 0 &&& pixMask xm (row, 7 - t)
          = updMask xm sprite (row, 7 - t) := by
        rw [hb1, applyMasks_bit xm ym sprite ps s.buffer hlen hpw (row, 7 - t)
          (mem_drawPairs.mpr ⟨hrow, by omega⟩),
          hblank2 (row, 7 - t) (mem_drawPairs.mpr ⟨hrow, by omega⟩), Nat.zero_xor]
      rw [hbit, hupd]
      have hpos := pixMask_pos xm (row, 7 - t)
      simp [Nat.pos_iff_ne_zero.mp hpos]


/-- Closed witness for C7: drawing the glyph row `[0xF0]` twice at
(0, 0) on a fresh screen restores the blank buffer, with collision
`false` then `true`. -/
theorem c7_double_draw_witness :
    ((Screen.new.draw_sprite 0 0 [0xF0]).2.draw_sprite 0 0 [0xF0]).2.buffer
        = Screen.new.buffer
    ∧ (Screen.new.draw_sprite 0 0 [0xF0]).1 = false
    ∧ ((Screen.new.draw_sprite 0 0 [0xF0]).2.draw_sprite 0 0 [0xF0]).1 = true := by
  have h := c7_double_draw Screen.new 0 0 [0xF0] (by decide)
  exact ⟨h.1, (h.2 (by decide)).1, (h.2 (by decide)).2 (by decide)⟩


/-! ### CPU (`src/core/src/cpu.rs`)

The CPU state owns the 4096-byte memory, the sixteen `V` registers, the
`I` register, both timers, the program counter, the stack pointer and
the screen.  The input port and the random generator are passed to
`step` as parameters (`key` is what `input.get_key()` returns during the
step; `rnd` is what `rand::thread_rng().gen_range(0x00..=0xFF)` returns;
`tick` tells whether 16 ms have elapsed since `last_decrement`, which is
the only use of the wall clock).  `u8`/`u16` arithmetic is performed on
`Nat` followed by `% 256` / `% 65536` where the source's type wraps, and
an out-of-bounds index (a Rust panic) is `none` in the `Exec` monad. -/

/-- Result of a fallible, possibly panicking computation:
`none` = panic (out-of-bounds index), `some (.error e)` = `Err(e)`,
`some (.ok a)` = `Ok(a)`. -/
def Exec (α : Type) : Type := Option (Except Chip8Error α)

instance : Monad Exec where
  pure a := some (Except.ok a)
  bind m f :=
    match m with
    | none => none
    | some (Except.error e) => some (Except.error e)
    | some (Except.ok a) => f a

/-- A Rust panic (out-of-bounds slice index). -/
def epanic {α : Type} : Exec α := none

/-- An `Err(e)` return. -/
def efail {α : Type} (e : Chip8Error) : Exec α := some (Except.error e)

/-- Indexed read `slice[i]`: panics when out of bounds. -/
def rd (l : List Nat) (i : Nat) : Exec Nat :=
  match l.get? i with
  | some v => pure v
  | none => epanic

/-- Indexed write `slice[i] = v`: panics when out of bounds. -/
def wr (l : List Nat) (i v : Nat) : Exec (List Nat) :=
  if i < l.length then pure (l.set i v) else epanic

/-- `const FONT_BUFFER: [u8; 80]` from `src/core/src/cpu.rs`. -/
def FONT_BUFFER : List Nat :=
  [0xF0, 0x90, 0x90, 0x90, 0xF0,
   0x20, 0x60, 0x20, 0x20, 0x70,
   0xF0, 0x10, 0xF0, 0x80, 0xF0,
   0xF0, 0x10, 0xF0, 0x10, 0xF0,
   0x90, 0x90, 0xF0, 0x10, 0x10,
   0xF0, 0x80, 0xF0, 0x10, 0xF0,
   0xF0, 0x80, 0xF0, 0x90, 0xF0,
   0xF0, 0x10, 0x20, 0x40, 0x40,
   0xF0, 0x90, 0xF0, 0x90, 0xF0,
   0xF0, 0x90, 0xF0, 0x10, 0xF0,
   0xF0, 0x90, 0xF0, 0x90, 0x90,
   0xE0, 0x90, 0xE0, 0x90, 0xE0,
   0xF0, 0x80, 0x80, 0x80, 0xF0,
   0xE0, 0x90, 0x90, 0x90, 0xE0,
   0xF0, 0x80, 0xF0, 0x80, 0xF0,
   0xF0, 0x80, 0xF0, 0x80, 0x80]

/-- `const PGRM_LOAD_START_ADDR: u16 = 0x200`. -/
def PGRM_LOAD_START_ADDR : Nat := 0x200

/-- `const FONT_START_ADDR: u16 = 0x50`. -/
def FONT_START_ADDR : Nat := 0x50

/-- `struct CPU` (the `screen` collaborator is part of the state; the
`input` port and `last_decrement` clock are step parameters). -/
structure Cpu where
  memory : List Nat
  v : List Nat
  i : Nat
  timer : Nat
  sound : Nat
  pc : Nat
  stack_ptr : Nat
  screen : Screen
  deriving DecidableEq, Repr

/-- `write_all` of `data` into the slice starting at `addr`
(`memory[addr..]`), byte by byte. -/
def writeBytes (mem : List Nat) (addr : Nat) : List Nat → List Nat
  | [] => mem
  | d :: ds => writeBytes (mem.set addr d) (addr + 1) ds

/-- `CPU::new`: zeroed state, `PC = 0x200`, `SP = 0xFFF`, and the font
written at `memory[0x50..]`. -/
def Cpu.new (screen : Screen) : Cpu :=
  { memory := writeBytes (List.replicate 4096 0) 0x50 FONT_BUFFER
    v := List.replicate 16 0
    i := 0
    timer := 0
    sound := 0
    pc := 0x200
    stack_ptr := 0xFFF
    screen := screen }

/-- `CPU::reset`: resets `PC`/`SP`, fills memory and registers with 0,
zeroes `I` and the timers, and clears the screen.  (It does not rewrite
the font.) -/
def Cpu.reset (c : Cpu) : Cpu :=
  { c with
    pc := 0x200
    stack_ptr := 0xFFF
    memory := c.memory.map (fun _ => 0)
    v := c.v.map (fun _ => 0)
    i := 0
    timer := 0
    sound := 0
    screen := c.screen.clear }

/-- `CPU::load_into_memory(start_addr, data)`. -/
def Cpu.load_into_memory (c : Cpu) (start_addr : Nat) (data : List Nat) : Cpu :=
  { c with memory := writeBytes c.memory start_addr data }

/-- `CPU::load_program(data)`: copy at 0x200. -/
def Cpu.load_program (c : Cpu) (data : List Nat) : Cpu :=
  c.load_into_memory PGRM_LOAD_START_ADDR data


/-- One instruction dispatch: the `match opcode` block of `CPU::step`,
returning the mutated state together with the `increment_pc` flag of the
arm (`Ok(true)`/`Ok(false)` in the source). -/
def execOp (c : Cpu) (opcode : OpCode) (key : Option Nat) (rnd : Nat) :
    Exec (Cpu × Bool) :=
  match opcode with
  -- Execute machine language subroutine at address: unimplemented
  | OpCode._0NNN nnn =>
      efail (Chip8Error.UnimplementedOpcodeError (OpCode._0NNN nnn))
  -- Clear the screen
  | OpCode._00E0 =>
      pure ({ c with screen := c.screen.clear }, true)
  -- Return from subroutine
  | OpCode._00EE => do
      let hi ← rd c.memory ((c.stack_ptr + 1) % 65536)
      let lo ← rd c.memory ((c.stack_ptr + 2) % 65536)
      let c := { c with pc := ((hi <<< 8) % 65536) ||| lo }
      if c.stack_ptr = 0xFFF then
        efail Chip8Error.StackUnderflowError
      else
        pure ({ c with stack_ptr := (c.stack_ptr + 2) % 65536 }, false)
  -- Jump to address NNN
  | OpCode._1NNN nnn =>
      pure ({ c with pc := nnn }, false)
  -- Execute subroutine at address NNN
  | OpCode._2NNN nnn => do
      let pc_to_push := (c.pc + 2) % 65536
      let left := (pc_to_push >>> 8) % 256
      let right := pc_to_push % 256
      let m1 ← wr c.memory ((c.stack_ptr + 65536 - 1) % 65536) left
      let m2 ← wr m1 c.stack_ptr right
      pure ({ c with
                memory := m2
                stack_ptr := (c.stack_ptr + 65536 - 2) % 65536
                pc := nnn }, false)
  -- Skip the following instruction if VX == NN
  | OpCode._3XNN x nn => do
      let vx_val ← rd c.v x
      if vx_val = nn then pure ({ c with pc := (c.pc + 2) % 65536 }, true)
      else pure (c, true)
  -- Skip the following instruction if VX != NN
  | OpCode._4XNN x nn => do
      let vx_val ← rd c.v x
      if vx_val ≠ nn then pure ({ c with pc := (c.pc + 2) % 65536 }, true)
      else pure (c, true)
  -- Skip the following instruction if VX == VY
  | OpCode._5XY0 x y => do
      let vx_val ← rd c.v x
      let vy_val ← rd c.v y
      if vx_val = vy_val then pure ({ c with pc := (c.pc + 2) % 65536 }, true)
      else pure (c, true)
  -- Store NN in VX
  | OpCode._6XNN x nn => do
      let v1 ← wr c.v x nn
      pure ({ c with v := v1 }, true)
  -- Add NN to VX (wrapping)
  | OpCode._7XNN x nn => do
      let xval ← rd c.v x
      let v1 ← wr c.v x ((xval + nn) % 256)
      pure ({ c with v := v1 }, true)
  -- VX := VY
  | OpCode._8XY0 x y => do
      let val ← rd c.v y
      let v1 ← wr c.v x val
      pure ({ c with v := v1 }, true)
  -- VX := VX | VY; VF := 0
  | OpCode._8XY1 x y => do
      let xval ← rd c.v x
      let yval ← rd c.v y
      let v1 ← wr c.v x (xval ||| yval)
      let v2 ← wr v1 0xF 0
      pure ({ c with v := v2 }, true)
  -- VX := VX & VY; VF := 0
  | OpCode._8XY2 x y => do
      let xval ← rd c.v x
      let yval ← rd c.v y
      let v1 ← wr c.v x (xval &&& yval)
      let v2 ← wr v1 0xF 0
      pure ({ c with v := v2 }, true)
  -- VX := VX ^ VY; VF := 0
  | OpCode._8XY3 x y => do
      let xval ← rd c.v x
      let yval ← rd c.v y
      let v1 ← wr c.v x (xval ^^^ yval)
      let v2 ← wr v1 0xF 0
      pure ({ c with v := v2 }, true)
  -- VX := VX + VY with carry in VF (the sum is formed in u16)
  | OpCode._8XY4 x y => do
      let xval ← rd c.v x
      let yval ← rd c.v y
      let result := xval + yval
      let v1 ← wr c.v x (result % 256)
      let v2 ← wr v1 0xF ((result &&& 0x0100) >>> 8)
      pure ({ c with v := v2 }, true)
  -- VX := VX - VY (u16 wrapping sub, cast to u8); VF := borrow flag
  | OpCode._8XY5 x y => do
      let xval ← rd c.v x
      let yval ← rd c.v y
      let result := (xval + 65536 - yval) % 65536
      let v1 ← wr c.v x (result % 256)
      let v2 ← wr v1 0xF (if yval > xval then 0 else 1)
      pure ({ c with v := v2 }, true)
  -- VX := VY >> 1; VF := VY & 1
  | OpCode._8XY6 x y => do
      let yval ← rd c.v y
      let v1 ← wr c.v x (yval >>> 1)
      let v2 ← wr v1 0xF (yval &&& 0x01)
      pure ({ c with v := v2 }, true)
  -- VX := VY - VX (u16 wrapping sub, cast to u8); VF := borrow flag
  | OpCode._8XY7 x y => do
      let xval ← rd c.v x
      let yval ← rd c.v y
      let result := (yval + 65536 - xval) % 65536
      let v1 ← wr c.v x (result % 256)
      let v2 ← wr v1 0xF (if xval > yval then 0 else 1)
      pure ({ c with v := v2 }, true)
  -- VX := VY << 1 (u8 shift); VF := VY >> 7
  | OpCode._8XYE x y => do
      let yval ← rd c.v y
      let v1 ← wr c.v x ((yval <<< 1) % 256)
      let v2 ← wr v1 0xF (yval >>> 7)
      pure ({ c with v := v2 }, true)
  -- Skip the following instruction if VX != VY
  | OpCode._9XY0 x y => do
      let xval ← rd c.v x
      let yval ← rd c.v y
      if xval ≠ yval then pure ({ c with pc := (c.pc + 2) % 65536 }, true)
      else pure (c, true)
  -- I := NNN
  | OpCode._ANNN nnn =>
      pure ({ c with i := nnn }, true)
  -- PC := NNN + V0 (u16 add)
  | OpCode._BNNN nnn => do
      let v0 ← rd c.v 0
      pure ({ c with pc := (nnn + v0) % 65536 }, true)
  -- VX := rnd() & NN
  | OpCode._CXNN x nn => do
      let val := rnd
      let v1 ← wr c.v x (val &&& nn)
      pure ({ c with v := v1 }, true)
  -- Draw sprite memory[I..I+n] at (VX, VY); VF := collision
  | OpCode._DXYN x y n => do
      let mem_start := c.i
      let mem_end := mem_start + n
      if mem_end ≤ c.memory.length then do
        let memslice := (c.memory.drop mem_start).take n
        let vx ← rd c.v x
        let vy ← rd c.v y
        let res := c.screen.draw_sprite vx vy memslice
        let v1 ← wr c.v 0xF (if res.1 then 1 else 0)
        pure ({ c with screen := res.2, v := v1 }, true)
      else epanic
  -- Skip the following instruction if key == VX
  | OpCode._EX9E x => do
      let vx ← rd c.v x
      if key = some vx then pure ({ c with pc := (c.pc + 2) % 65536 }, true)
      else pure (c, true)
  -- Skip the following instruction if key != VX
  | OpCode._EXA1 x => do
      let vx ← rd c.v x
      if key ≠ some vx then pure ({ c with pc := (c.pc + 2) % 65536 }, true)
      else pure (c, true)
  -- VX := delay timer
  | OpCode._FX07 x => do
      let v1 ← wr c.v x c.timer
      pure ({ c with v := v1 }, true)
  -- Wait for a keypress: VX := key when present, else do not advance
  | OpCode._FX0A x =>
      match key with
      | some k => do
          let v1 ← wr c.v x k
          pure ({ c with v := v1 }, true)
      | none => pure (c, false)
  -- delay timer := VX
  | OpCode._FX15 x => do
      let vx ← rd c.v x
      pure ({ c with timer := vx }, true)
  -- sound timer := VX
  | OpCode._FX18 x => do
      let vx ← rd c.v x
      pure ({ c with sound := vx }, true)
  -- I := I + VX (u16 add)
  | OpCode._FX1E x => do
      let vx ← rd c.v x
      pure ({ c with i := (c.i + vx) % 65536 }, true)
  -- I := font address of hex digit VX
  | OpCode._FX29 x => do
      let vx ← rd c.v x
      let vs := vx % 16
      pure ({ c with i := FONT_START_ADDR + vs * 5 }, true)
  -- BCD of VX at memory[I], memory[I+1], memory[I+2]
  | OpCode._FX33 x => do
      let val ← rd c.v x
      let m1 ← wr c.memory c.i (val / 100)
      let m2 ← wr m1 (c.i + 1) ((val / 10) % 10)
      let m3 ← wr m2 (c.i + 2) (val % 10)
      pure ({ c with memory := m3 }, true)
  -- Store V0..=VX at memory[I..]; I := I + X + 1
  | OpCode._FX55 x => do
      let m ← (List.range (x + 1)).foldlM
        (fun m reg => do
          let vr ← rd c.v reg
          wr m ((c.i + reg) % 65536) vr) c.memory
      pure ({ c with memory := m, i := (c.i + x + 1) % 65536 }, true)
  -- Load V0..=VX from memory[I..]; I := I + X + 1
  | OpCode._FX65 x => do
      let vv ← (List.range (x + 1)).foldlM
        (fun vv reg => do
          let mr ← rd c.memory ((c.i + reg) % 65536)
          wr vv reg mr) c.v
      pure ({ c with v := vv, i := (c.i + x + 1) % 65536 }, true)

/-- The timer maintenance at the top of `CPU::step`: when ≥ 16 ms have
elapsed (`tick`), decrement each nonzero timer. -/
def tickTimers (c : Cpu) (tick : Bool) : Cpu :=
  if tick then
    { c with
        timer := if c.timer > 0 then c.timer - 1 else c.timer
        sound := if c.sound > 0 then c.sound - 1 else c.sound }
  else c

/-- `CPU::step`: timer maintenance, fetch of the big-endian word at
`PC`, decode, dispatch, and the final `pc += 2` when the arm requested
it. -/
def step (c : Cpu) (key : Option Nat) (tick : Bool) (rnd : Nat) : Exec Cpu := do
  let c := tickTimers c tick
  let op1 ← rd c.memory c.pc
  let op2 ← rd c.memory (c.pc + 1)
  match decodeOp op1 op2 with
  | Except.error e => efail e
  | Except.ok opcode => do
      let res ← execOp c opcode key rnd
      if res.2 then pure { res.1 with pc := (res.1.pc + 2) % 65536 }
      else pure res.1



/-! ### Reduction lemmas for symbolic execution of `step` -/

theorem ebind_pure {α β : Type} (a : α) (f : α → Exec β) :
    (pure a : Exec α) >>= f = f a := rfl

theorem ebind_epanic {α β : Type} (f : α → Exec β) :
    (epanic : Exec α) >>= f = epanic := rfl

theorem ebind_efail {α β : Type} (e : Chip8Error) (f : α → Exec β) :
    (efail e : Exec α) >>= f = efail e := rfl

theorem rd_eq_pure {l : List Nat} {i v : Nat} (h : l.get? i = some v) :
    rd l i = pure v := by
  unfold rd
  rw [h]

theorem rd_eq_epanic {l : List Nat} {i : Nat} (h : l.get? i = none) :
    rd l i = epanic := by
  unfold rd
  rw [h]

theorem wr_eq_pure {l : List Nat} {i : Nat} (v : Nat) (h : i < l.length) :
    wr l i v = pure (l.set i v) := by
  simp [wr, h]

theorem tickTimers_false (c : Cpu) : tickTimers c false = c := rfl

theorem tickTimers_memory (c : Cpu) (t : Bool) :
    (tickTimers c t).memory = c.memory := by cases t <;> rfl

theorem tickTimers_pc (c : Cpu) (t : Bool) :
    (tickTimers c t).pc = c.pc := by cases t <;> rfl

theorem tickTimers_stack_ptr (c : Cpu) (t : Bool) :
    (tickTimers c t).stack_ptr = c.stack_ptr := by cases t <;> rfl

theorem tickTimers_v (c : Cpu) (t : Bool) :
    (tickTimers c t).v = c.v := by cases t <;> rfl

theorem tickTimers_i (c : Cpu) (t : Bool) :
    (tickTimers c t).i = c.i := by cases t <;> rfl

theorem tickTimers_screen (c : Cpu) (t : Bool) :
    (tickTimers c t).screen = c.screen := by cases t <;> rfl

theorem writeBytes_length :
    ∀ (data : List Nat) (mem : List Nat) (a : Nat),
      (writeBytes mem a data).length = mem.length := by
  intro data
  induction data with
  | nil => intro mem a; rfl
  | cons d ds ih =>
    intro mem a
    simp only [writeBytes]
    rw [ih, List.length_set]

theorem writeBytes_get?_lt :
    ∀ (data : List Nat) (mem : List Nat) (a j : Nat), j < a →
      (writeBytes mem a data).get? j = mem.get? j := by
  intro data
  induction data with
  | nil => intro mem a j _; rfl
  | cons d ds ih =>
    intro mem a j hj
    simp only [writeBytes]
    rw [ih _ _ _ (by omega), List.get?_eq_getElem?, List.getElem?_set,
      if_neg_chip (by omega), ← List.get?_eq_getElem?]

theorem writeBytes_get?_at :
    ∀ (data : List Nat) (mem : List Nat) (a k : Nat), k < data.length →
      a + data.length ≤ mem.length →
      (writeBytes mem a data).get? (a + k) = data.get? k := by
  intro data
  induction data with
  | nil =>
    intro mem a k hk
    simp at hk
  | cons d ds ih =>
    intro mem a k hk hlen
    simp only [writeBytes]
    match k with
    | 0 =>
      rw [writeBytes_get?_lt ds _ _ _ (by omega), Nat.add_zero,
        List.get?_eq_getElem?, List.getElem?_set, if_pos rfl,
        if_pos (by simp at hlen ⊢; omega)]
      rfl
    | k + 1 =>
      have := ih (mem.set a d) (a + 1) k (by simpa using hk)
        (by simp at hlen ⊢; omega)
      rw [show a + (k + 1) = a + 1 + k by omega, this]
      rfl


/-- Every successfully decoded opcode (from a byte pair) has its
operand fields in the valid ranges. -/
theorem decodeOp_valid (a b : Nat) (hb : b < 256) (op : OpCode) :
    decodeOp a b = Except.ok op → validOp op := by
  unfold decodeOp
  by_cases g0 : a / 16 = 0 ∧ a % 16 = 0 ∧ b / 16 = 14 ∧ b % 16 = 0
  · rw [if_pos g0]
    intro hh
    injection hh with h2
    subst h2
    simp only [validOp, nnOf, nnnOf, land255, land4095]
    try omega
  · rw [if_neg g0]
    by_cases g1 : a / 16 = 0 ∧ a % 16 = 0 ∧ b / 16 = 14 ∧ b % 16 = 14
    · rw [if_pos g1]
      intro hh
      injection hh with h2
      subst h2
      simp only [validOp, nnOf, nnnOf, land255, land4095]
      try omega
    · rw [if_neg g1]
      by_cases g2 : a / 16 = 0
      · rw [if_pos g2]
        intro hh
        injection hh with h2
        subst h2
        simp only [validOp, nnOf, nnnOf, land255, land4095]
        try omega
      · rw [if_neg g2]
        by_cases g3 : a / 16 = 1
        · rw [if_pos g3]
          intro hh
          injection hh with h2
          subst h2
          simp only [validOp, nnOf, nnnOf, land255, land4095]
          try omega
        · rw [if_neg g3]
          by_cases g4 : a / 16 = 2
          · rw [if_pos g4]
            intro hh
            injection hh with h2
            subst h2
            simp only [validOp, nnOf, nnnOf, land255, land4095]
            try omega
          · rw [if_neg g4]
            by_cases g5 : a / 16 = 3
            · rw [if_pos g5]
              intro hh
              injection hh with h2
              subst h2
              simp only [validOp, nnOf, nnnOf, land255, land4095]
              try omega
            · rw [if_neg g5]
              by_cases g6 : a / 16 = 4
              · rw [if_pos g6]
                intro hh
                injection hh with h2
                subst h2
                simp only [validOp, nnOf, nnnOf, land255, land4095]
                try omega
              · rw [if_neg g6]
                by_cases g7 : a / 16 = 5 ∧ b % 16 = 0
                · rw [if_pos g7]
                  intro hh
                  injection hh with h2
                  subst h2
                  simp only [validOp, nnOf, nnnOf, land255, land4095]
                  try omega
                · rw [if_neg g7]
                  by_cases g8 : a / 16 = 6
                  · rw [if_pos g8]
                    intro hh
                    injection hh with h2
                    subst h2
                    simp only [validOp, nnOf, nnnOf, land255, land4095]
                    try omega
                  · rw [if_neg g8]
                    by_cases g9 : a / 16 = 7
                    · rw [if_pos g9]
                      intro hh
                      injection hh with h2
                      subst h2
                      simp only [validOp, nnOf, nnnOf, land255, land4095]
                      try omega
                    · rw [if_neg g9]
                      by_cases g10 : a / 16 = 8 ∧ b % 16 = 0
                      · rw [if_pos g10]
                        intro hh
                        injection hh with h2
                        subst h2
                        simp only [validOp, nnOf, nnnOf, land255, land4095]
                        try omega
                      · rw [if_neg g10]
                        by_cases g11 : a / 16 = 8 ∧ b % 16 = 1
                        · rw [if_pos g11]
                          intro hh
                          injection hh with h2
                          subst h2
                          simp only [validOp, nnOf, nnnOf, land255, land4095]
                          try omega
                        · rw [if_neg g11]
                          by_cases g12 : a / 16 = 8 ∧ b % 16 = 2
                          · rw [if_pos g12]
                            intro hh
                            injection hh with h2
                            subst h2
                            simp only [validOp, nnOf, nnnOf, land255, land4095]
                            try omega
                          · rw [if_neg g12]
                            by_cases g13 : a / 16 = 8 ∧ b % 16 = 3
                            · rw [if_pos g13]
                              intro hh
                              injection hh with h2
                              subst h2
                              simp only [validOp, nnOf, nnnOf, land255, land4095]
                              try omega
                            · rw [if_neg g13]
                              by_cases g14 : a / 16 = 8 ∧ b % 16 = 4
                              · rw [if_pos g14]
                                intro hh
                                injection hh with h2
                                subst h2
                                simp only [validOp, nnOf, nnnOf, land255, land4095]
                                try omega
                              · rw [if_neg g14]
                                by_cases g15 : a / 16 = 8 ∧ b % 16 = 5
                                · rw [if_pos g15]
                                  intro hh
                                  injection hh with h2
                                  subst h2
                                  simp only [validOp, nnOf, nnnOf, land255, land4095]
                                  try omega
                                · rw [if_neg g15]
                                  by_cases g16 : a / 16 = 8 ∧ b % 16 = 6
                                  · rw [if_pos g16]
                                    intro hh
                                    injection hh with h2
                                    subst h2
                                    simp only [validOp, nnOf, nnnOf, land255, land4095]
                                    try omega
                                  · rw [if_neg g16]
                                    by_cases g17 : a / 16 = 8 ∧ b % 16 = 7
                                    · rw [if_pos g17]
                                      intro hh
                                      injection hh with h2
                                      subst h2
                                      simp only [validOp, nnOf, nnnOf, land255, land4095]
                                      try omega
                                    · rw [if_neg g17]
                                      by_cases g18 : a / 16 = 8 ∧ b % 16 = 14
                                      · rw [if_pos g18]
                                        intro hh
                                        injection hh with h2
                                        subst h2
                                        simp only [validOp, nnOf, nnnOf, land255, land4095]
                                        try omega
                                      · rw [if_neg g18]
                                        by_cases g19 : a / 16 = 9 ∧ b % 16 = 0
                                        · rw [if_pos g19]
                                          intro hh
                                          injection hh with h2
                                          subst h2
                                          simp only [validOp, nnOf, nnnOf, land255, land4095]
                                          try omega
                                        · rw [if_neg g19]
                                          by_cases g20 : a / 16 = 10
                                          · rw [if_pos g20]
                                            intro hh
                                            injection hh with h2
                                            subst h2
                                            simp only [validOp, nnOf, nnnOf, land255, land4095]
                                            try omega
                                          · rw [if_neg g20]
                                            by_cases g21 : a / 16 = 11
                                            · rw [if_pos g21]
                                              intro hh
                                              injection hh with h2
                                              subst h2
                                              simp only [validOp, nnOf, nnnOf, land255, land4095]
                                              try omega
                                            · rw [if_neg g21]
                                              by_cases g22 : a / 16 = 12
                                              · rw [if_pos g22]
                                                intro hh
                                                injection hh with h2
                                                subst h2
                                                simp only [validOp, nnOf, nnnOf, land255, land4095]
                                                try omega
                                              · rw [if_neg g22]
                                                by_cases g23 : a / 16 = 13
                                                · rw [if_pos g23]
                                                  intro hh
                                                  injection hh with h2
                                                  subst h2
                                                  simp only [validOp, nnOf, nnnOf, land255, land4095]
                                                  try omega
                                                · rw [if_neg g23]
                                                  by_cases g24 : a / 16 = 14 ∧ b / 16 = 9 ∧ b % 16 = 14
                                                  · rw [if_pos g24]
                                                    intro hh
                                                    injection hh with h2
                                                    subst h2
                                                    simp only [validOp, nnOf, nnnOf, land255, land4095]
                                                    try omega
                                                  · rw [if_neg g24]
                                                    by_cases g25 : a / 16 = 14 ∧ b / 16 = 10 ∧ b % 16 = 1
                                                    · rw [if_pos g25]
                                                      intro hh
                                                      injection hh with h2
                                                      subst h2
                                                      simp only [validOp, nnOf, nnnOf, land255, land4095]
                                                      try omega
                                                    · rw [if_neg g25]
                                                      by_cases g26 : a / 16 = 15 ∧ b / 16 = 0 ∧ b % 16 = 7
                                                      · rw [if_pos g26]
                                                        intro hh
                                                        injection hh with h2
                                                        subst h2
                                                        simp only [validOp, nnOf, nnnOf, land255, land4095]
                                                        try omega
                                                      · rw [if_neg g26]
                                                        by_cases g27 : a / 16 = 15 ∧ b / 16 = 0 ∧ b % 16 = 10
                                                        · rw [if_pos g27]
                                                          intro hh
                                                          injection hh with h2
                                                          subst h2
                                                          simp only [validOp, nnOf, nnnOf, land255, land4095]
                                                          try omega
                                                        · rw [if_neg g27]
                                                          by_cases g28 : a / 16 = 15 ∧ b / 16 = 1 ∧ b % 16 = 5
                                                          · rw [if_pos g28]
                                                            intro hh
                                                            injection hh with h2
                                                            subst h2
                                                            simp only [validOp, nnOf, nnnOf, land255, land4095]
                                                            try omega
                                                          · rw [if_neg g28]
                                                            by_cases g29 : a / 16 = 15 ∧ b / 16 = 1 ∧ b % 16 = 8
                                                            · rw [if_pos g29]
                                                              intro hh
                                                              injection hh with h2
                                                              subst h2
                                                              simp only [validOp, nnOf, nnnOf, land255, land4095]
                                                              try omega
                                                            · rw [if_neg g29]
                                                              by_cases g30 : a / 16 = 15 ∧ b / 16 = 1 ∧ b % 16 = 14
                                                              · rw [if_pos g30]
                                                                intro hh
                                                                injection hh with h2
                                                                subst h2
                                                                simp only [validOp, nnOf, nnnOf, land255, land4095]
                                                                try omega
                                                              · rw [if_neg g30]
                                                                by_cases g31 : a / 16 = 15 ∧ b / 16 = 2 ∧ b % 16 = 9
                                                                · rw [if_pos g31]
                                                                  intro hh
                                                                  injection hh with h2
                                                                  subst h2
                                                                  simp only [validOp, nnOf, nnnOf, land255, land4095]
                                                                  try omega
                                                                · rw [if_neg g31]
                                                                  by_cases g32 : a / 16 = 15 ∧ b / 16 = 3 ∧ b % 16 = 3
                                                                  · rw [if_pos g32]
                                                                    intro hh
                                                                    injection hh with h2
                                                                    subst h2
                                                                    simp only [validOp, nnOf, nnnOf, land255, land4095]
                                                                    try omega
                                                                  · rw [if_neg g32]
                                                                    by_cases g33 : a / 16 = 15 ∧ b / 16 = 5 ∧ b % 16 = 5
                                                                    · rw [if_pos g33]
                                                                      intro hh
                                                                      injection hh with h2
                                                                      subst h2
                                                                      simp only [validOp, nnOf, nnnOf, land255, land4095]
                                                                      try omega
                                                                    · rw [if_neg g33]
                                                                      by_cases g34 : a / 16 = 15 ∧ b / 16 = 6 ∧ b % 16 = 5
                                                                      · rw [if_pos g34]
                                                                        intro hh
                                                                        injection hh with h2
                                                                        subst h2
                                                                        simp only [validOp, nnOf, nnnOf, land255, land4095]
                                                                        try omega
                                                                      · rw [if_neg g34]
                                                                        intro hh
                                                                        exact Except.noConfusion hh

/-- C2, code bug: executing `00EE` with `SP = 0xFFF` (empty stack) does
not return `StackUnderflowError`.  The `00EE` arm reads
`memory[SP + 1] = memory[0x1000]` — out of bounds for the 4096-byte
memory, a panic — before it ever reaches the `SP == 0xFFF` underflow
check, so `step` panics (`none`) instead of producing
`some (Except.error StackUnderflowError)`. -/
theorem c2_stack_underflow_bug :
    step ((Cpu.new Screen.new).load_program [0x00, 0xEE]) none false 0
      = (none : Exec Cpu)
    ∧ ((Cpu.new Screen.new).load_program [0x00, 0xEE]).stack_ptr = 0xFFF
    ∧ decodeOp 0x00 0xEE = Except.ok OpCode._00EE := by
  refine ⟨?_, rfl, by decide⟩
  have hilen : (writeBytes (List.replicate 4096 0) 0x50 FONT_BUFFER).length = 4096 := by
    rw [writeBytes_length, List.length_replicate]
  have hmem : ((Cpu.new Screen.new).load_program [0x00, 0xEE]).memory
      = ((writeBytes (List.replicate 4096 0) 0x50 FONT_BUFFER).set 0x200 0x00).set
          (0x200 + 1) 0xEE := rfl
  have hlen : ((Cpu.new Screen.new).load_program [0x00, 0xEE]).memory.length = 4096 := by
    rw [hmem]
    simp only [List.length_set]
    exact hilen
  have h1 : ((Cpu.new Screen.new).load_program [0x00, 0xEE]).memory.get? 0x200
      = some 0x00 := by
    rw [hmem, List.get?_eq_getElem?, List.getElem?_set, if_neg_chip (by omega),
      List.getElem?_set, if_pos rfl, if_pos (by rw [hilen]; omega)]
  have h2 : ((Cpu.new Screen.new).load_program [0x00, 0xEE]).memory.get? (0x200 + 1)
      = some 0xEE := by
    rw [hmem, List.get?_eq_getElem?, List.getElem?_set, if_pos rfl,
      if_pos (by simp only [List.length_set]; rw [hilen]; omega)]
  have h3 : ((Cpu.new Screen.new).load_program [0x00, 0xEE]).memory.get? 0x1000
      = none := by
    rw [List.get?_eq_getElem?, List.getElem?_eq_none]
    rw [hlen]
  simp only [step, tickTimers_false]
  rw [show ((Cpu.new Screen.new).load_program [0x00, 0xEE]).pc = 0x200 from rfl]
  rw [rd_eq_pure h1, ebind_pure, rd_eq_pure h2, ebind_pure]
  rw [show decodeOp 0x00 0xEE = Except.ok OpCode._00EE from by decide]
  simp only [execOp]
  rw [show ((Cpu.new Screen.new).load_program [0x00, 0xEE]).stack_ptr = 0xFFF from rfl]
  rw [show (0xFFF + 1) % 65536 = 0x1000 from by norm_num]
  rw [rd_eq_epanic h3, ebind_epanic]
  rfl

/-- C5, code bug: `reset()` does restore `PC = 0x200`, `SP = 0xFFF` and
zero `V`/`I`/timers, but it zeroes the whole 4096-byte memory without
rewriting the font: `memory[0x50]` is 0xF0 (the first font byte) after
construction and 0 after `reset()`, so `memory[0x50..0xA0]` does not
contain the font after a reset. -/
theorem c5_reset_font_bug :
    ((Cpu.new Screen.new).reset).pc = 0x200
    ∧ ((Cpu.new Screen.new).reset).stack_ptr = 0xFFF
    ∧ ((Cpu.new Screen.new).reset).v = List.replicate 16 0
    ∧ ((Cpu.new Screen.new).reset).i = 0
    ∧ ((Cpu.new Screen.new).reset).timer = 0
    ∧ ((Cpu.new Screen.new).reset).sound = 0
    ∧ ((Cpu.new Screen.new).reset).memory = List.replicate 4096 0
    ∧ (Cpu.new Screen.new).memory.getD 0x50 0 = 0xF0
    ∧ ((Cpu.new Screen.new).reset).memory.getD 0x50 0 = 0
    ∧ FONT_BUFFER.getD 0 0 = 0xF0 := by
  have hmem : ((Cpu.new Screen.new).reset).memory = List.replicate 4096 0 := by
    show ((Cpu.new Screen.new).memory.map (fun _ => 0)) = List.replicate 4096 0
    rw [List.map_const' _ 0,
      show (Cpu.new Screen.new).memory
        = writeBytes (List.replicate 4096 0) 0x50 FONT_BUFFER from rfl,
      writeBytes_length, List.length_replicate]
  refine ⟨rfl, rfl, by decide, rfl, rfl, rfl, hmem, ?_, ?_, by decide⟩
  · show (writeBytes (List.replicate 4096 0) 0x50 FONT_BUFFER).getD 0x50 0 = 0xF0
    rw [List.getD_eq_getElem?_getD, ← List.get?_eq_getElem?,
      show (0x50 : Nat) = 0x50 + 0 from rfl,
      writeBytes_get?_at FONT_BUFFER _ 0x50 0 (by decide)
        (by rw [List.length_replicate]; decide)]
    rfl
  · rw [hmem, List.getD_eq_getElem?_getD, List.getElem?_replicate,
      if_pos_chip (by omega)]
    rfl

/-- C4, counterexample: the claim fails as stated.  From a reachable
state with `V[0] = 2` and the word 0xBFFF at `PC = 0x200`, `step`
succeeds and leaves `PC = 0xFFF + 2 + 2 = 0x1003 ≥ 0x1000`: the `BNNN`
arm sets `PC = nnn + V[0]` unbounded and requests the `pc += 2`
post-increment. -/
theorem c4_invariants_cex :
    (match step { (Cpu.new Screen.new).load_program [0xBF, 0xFF] with
                    v := (List.replicate 16 0).set 0 2 } none false 0 with
      | some (Except.ok c) => some c.pc
      | _ => none) = some 0x1003
    ∧ ¬(0x1003 < 0x1000) := by
  refine ⟨?_, by decide⟩
  have hilen : (writeBytes (List.replicate 4096 0) 0x50 FONT_BUFFER).length = 4096 := by
    rw [writeBytes_length, List.length_replicate]
  have hmem : ({ (Cpu.new Screen.new).load_program [0xBF, 0xFF] with
        v := (List.replicate 16 0).set 0 2 } : Cpu).memory
      = ((writeBytes (List.replicate 4096 0) 0x50 FONT_BUFFER).set 0x200 0xBF).set
          (0x200 + 1) 0xFF := rfl
  have h1 : ({ (Cpu.new Screen.new).load_program [0xBF, 0xFF] with
        v := (List.replicate 16 0).set 0 2 } : Cpu).memory.get? 0x200
      = some 0xBF := by
    rw [hmem, List.get?_eq_getElem?, List.getElem?_set, if_neg_chip (by omega),
      List.getElem?_set, if_pos rfl, if_pos (by rw [hilen]; omega)]
  have h2 : ({ (Cpu.new Screen.new).load_program [0xBF, 0xFF] with
        v := (List.replicate 16 0).set 0 2 } : Cpu).memory.get? (0x200 + 1)
      = some 0xFF := by
    rw [hmem, List.get?_eq_getElem?, List.getElem?_set, if_pos rfl,
      if_pos (by simp only [List.length_set]; rw [hilen]; omega)]
  simp only [step, tickTimers_false]
  rw [show ({ (Cpu.new Screen.new).load_program [0xBF, 0xFF] with
        v := (List.replicate 16 0).set 0 2 } : Cpu).pc = 0x200 from rfl]
  rw [rd_eq_pure h1, ebind_pure, rd_eq_pure h2, ebind_pure]
  rw [show decodeOp 0xBF 0xFF = Except.ok (OpCode._BNNN 0xFFF) from by decide]
  simp only [execOp]
  rw [rd_eq_pure (show ({ (Cpu.new Screen.new).load_program [0xBF, 0xFF] with
        v := (List.replicate 16 0).set 0 2 } : Cpu).v.get? 0 = some 2 from by decide)]
  rw [ebind_pure, ebind_pure]
  rfl


/-- C8: executing `FX0A` with no key pressed succeeds and changes
nothing except the timer tick (`PC`, `V`, `I`, `SP`, memory and screen
are all left as they were); with key `k` pressed, `V[x]` is set to `k`
and `PC` advances by 2. -/
theorem c8_fx0a_wait (c : Cpu) (tick : Bool) (rnd : Nat) (x a b : Nat)
    (ha : c.memory.get? c.pc = some a)
    (hb : c.memory.get? (c.pc + 1) = some b)
    (hb256 : b < 256)
    (hdec : decodeOp a b = Except.ok (OpCode._FX0A x))
    (hpc : c.pc + 2 < 65536)
    (hv : c.v.length = 16) :
    (step c none tick rnd = some (Except.ok (tickTimers c tick))
      ∧ (tickTimers c tick).pc = c.pc
      ∧ (tickTimers c tick).v = c.v
      ∧ (tickTimers c tick).i = c.i
      ∧ (tickTimers c tick).stack_ptr = c.stack_ptr
      ∧ (tickTimers c tick).memory = c.memory
      ∧ (tickTimers c tick).screen = c.screen)
    ∧ (∀ k : Nat, step c (some k) tick rnd
        = some (Except.ok { tickTimers c tick with
                              v := c.v.set x k
                              pc := c.pc + 2 })) := by
  have hx : x < 16 := decodeOp_valid a b hb256 _ hdec
  constructor
  · refine ⟨?_, tickTimers_pc c tick, tickTimers_v c tick, tickTimers_i c tick,
      tickTimers_stack_ptr c tick, tickTimers_memory c tick, tickTimers_screen c tick⟩
    simp only [step]
    rw [tickTimers_memory, tickTimers_pc, rd_eq_pure ha, ebind_pure,
      rd_eq_pure hb, ebind_pure, hdec]
    simp only [execOp]
    rw [ebind_pure]
    dsimp only
    rw [if_neg Bool.false_ne_true]
    rfl
  · intro k
    simp only [step]
    rw [tickTimers_memory, tickTimers_pc, rd_eq_pure ha, ebind_pure,
      rd_eq_pure hb, ebind_pure, hdec]
    simp only [execOp]
    rw [tickTimers_v, wr_eq_pure k (by omega), ebind_pure, ebind_pure]
    dsimp only
    rw [if_pos rfl]
    rw [show ({ tickTimers c tick with v := c.v.set x k } : Cpu).pc = c.pc from
      tickTimers_pc c tick, Nat.mod_eq_of_lt hpc, tickTimers_memory]
    rfl

/-- Closed witness for C8 at a concrete state: `F30A` at `PC = 0`, with
no key and with key 7. -/
theorem c8_fx0a_wait_witness :
    (step ⟨[0xF3, 0x0A], List.replicate 16 0, 0, 0, 0, 0, 0xFFF, Screen.new⟩
        none false 0
      = some (Except.ok ⟨[0xF3, 0x0A], List.replicate 16 0, 0, 0, 0, 0, 0xFFF,
          Screen.new⟩))
    ∧ (step ⟨[0xF3, 0x0A], List.replicate 16 0, 0, 0, 0, 0, 0xFFF, Screen.new⟩
        (some 7) false 0
      = some (Except.ok ⟨[0xF3, 0x0A], (List.replicate 16 0).set 3 7, 0, 0, 0, 2,
          0xFFF, Screen.new⟩)) := by
  have h := c8_fx0a_wait
    ⟨[0xF3, 0x0A], List.replicate 16 0, 0, 0, 0, 0, 0xFFF, Screen.new⟩
    false 0 3 0xF3 0x0A (by rfl) (by rfl) (by decide) (by decide) (by decide)
    (by decide)
  exact ⟨h.1.1, h.2 7⟩


/-- C3: the call/return law.  From a state whose stack pointer is in the
valid stack range (2 ≤ SP ≤ 0xFFF, in bounds of memory) and whose
instruction at `PC` is `2NNN`, with `00EE` located at `nnn` (not
clobbered by the push), executing the call and then the return leaves
`PC = caller_pc + 2` and restores `SP` to its pre-call value. -/
theorem c3_call_return (c : Cpu) (k1 k2 : Option Nat) (t1 t2 : Bool)
    (r1 r2 nnn a b : Nat)
    (ha : c.memory.get? c.pc = some a)
    (hb : c.memory.get? (c.pc + 1) = some b)
    (hdec : decodeOp a b = Except.ok (OpCode._2NNN nnn))
    (hpc : c.pc + 2 < 65536)
    (hsp2 : 2 ≤ c.stack_ptr)
    (hspmax : c.stack_ptr ≤ 0xFFF)
    (hsplen : c.stack_ptr < c.memory.length)
    (hret0 : c.memory.get? nnn = some 0x00)
    (hret1 : c.memory.get? (nnn + 1) = some 0xEE)
    (hd1 : nnn ≠ c.stack_ptr - 1) (hd2 : nnn ≠ c.stack_ptr)
    (hd3 : nnn + 1 ≠ c.stack_ptr - 1) (hd4 : nnn + 1 ≠ c.stack_ptr) :
    ∃ s1 s2 : Cpu,
      step c k1 t1 r1 = some (Except.ok s1)
      ∧ step s1 k2 t2 r2 = some (Except.ok s2)
      ∧ s2.pc = c.pc + 2
      ∧ s2.stack_ptr = c.stack_ptr := by
  refine ⟨{ tickTimers c t1 with memory := (c.memory.set (c.stack_ptr - 1) (((c.pc + 2) >>> 8) % 256)).set c.stack_ptr ((c.pc + 2) % 256), pc := nnn, stack_ptr := c.stack_ptr - 2 },
    { tickTimers ({ tickTimers c t1 with memory := (c.memory.set (c.stack_ptr - 1) (((c.pc + 2) >>> 8) % 256)).set c.stack_ptr ((c.pc + 2) % 256), pc := nnn, stack_ptr := c.stack_ptr - 2 }) t2 with memory := (c.memory.set (c.stack_ptr - 1) (((c.pc + 2) >>> 8) % 256)).set c.stack_ptr ((c.pc + 2) % 256), pc := c.pc + 2, stack_ptr := c.stack_ptr }, ?h1, ?h2, ?h3, ?h4⟩
  case h1 =>
    simp only [step]
    rw [tickTimers_memory, tickTimers_pc, rd_eq_pure ha, ebind_pure,
      rd_eq_pure hb, ebind_pure, hdec]
    simp only [execOp]
    rw [tickTimers_memory, tickTimers_pc, tickTimers_stack_ptr]
    rw [Nat.mod_eq_of_lt hpc]
    rw [show (c.stack_ptr + 65536 - 1) % 65536 = c.stack_ptr - 1 from by omega]
    rw [wr_eq_pure _ (by omega), ebind_pure]
    rw [wr_eq_pure _ (by rw [List.length_set]; omega), ebind_pure]
    rw [show (c.stack_ptr + 65536 - 2) % 65536 = c.stack_ptr - 2 from by omega]
    rw [ebind_pure]
    dsimp only
    rw [if_neg Bool.false_ne_true]
    rfl
  case h2 =>
    have hm0 : ((c.memory.set (c.stack_ptr - 1) (((c.pc + 2) >>> 8) % 256)).set
        c.stack_ptr ((c.pc + 2) % 256)).get? nnn = some 0x00 := by
      rw [List.get?_eq_getElem?, List.getElem?_set, if_neg_chip (by omega),
        List.getElem?_set, if_neg_chip (by omega), ← List.get?_eq_getElem?]
      exact hret0
    have hm1 : ((c.memory.set (c.stack_ptr - 1) (((c.pc + 2) >>> 8) % 256)).set
        c.stack_ptr ((c.pc + 2) % 256)).get? (nnn + 1) = some 0xEE := by
      rw [List.get?_eq_getElem?, List.getElem?_set, if_neg_chip (by omega),
        List.getElem?_set, if_neg_chip (by omega), ← List.get?_eq_getElem?]
      exact hret1
    have hmhi : ((c.memory.set (c.stack_ptr - 1) (((c.pc + 2) >>> 8) % 256)).set
        c.stack_ptr ((c.pc + 2) % 256)).get? (c.stack_ptr - 1)
        = some (((c.pc + 2) >>> 8) % 256) := by
      rw [List.get?_eq_getElem?, List.getElem?_set, if_neg_chip (by omega),
        List.getElem?_set, if_pos rfl, if_pos_chip (by omega)]
    have hmlo : ((c.memory.set (c.stack_ptr - 1) (((c.pc + 2) >>> 8) % 256)).set
        c.stack_ptr ((c.pc + 2) % 256)).get? c.stack_ptr
        = some ((c.pc + 2) % 256) := by
      rw [List.get?_eq_getElem?, List.getElem?_set, if_pos rfl,
        if_pos (by rw [List.length_set]; omega)]
    simp only [step]
    rw [tickTimers_memory, tickTimers_pc]
    dsimp only
    rw [rd_eq_pure hm0, ebind_pure, rd_eq_pure hm1, ebind_pure]
    rw [show decodeOp 0x00 0xEE = Except.ok OpCode._00EE from by decide]
    simp only [execOp]
    rw [tickTimers_memory, tickTimers_stack_ptr]
    dsimp only
    rw [show (c.stack_ptr - 2 + 1) % 65536 = c.stack_ptr - 1 from by omega]
    rw [show (c.stack_ptr - 2 + 2) % 65536 = c.stack_ptr from by omega]
    rw [rd_eq_pure hmhi, ebind_pure, rd_eq_pure hmlo, ebind_pure]
    rw [show (((((c.pc + 2) >>> 8) % 256) <<< 8) % 65536) ||| ((c.pc + 2) % 256)
        = c.pc + 2 from by
      rw [Nat.mod_eq_of_lt (by
        rw [Nat.shiftLeft_eq, shiftRight8, show (2 : Nat) ^ 8 = 256 from by norm_num]
        omega)]
      rw [lor256 _ _ (by omega), shiftRight8]
      omega]
    rw [if_neg_chip (by omega)]
    rw [ebind_pure]
    dsimp only
    rw [if_neg Bool.false_ne_true]
    rfl
  case h3 => rfl
  case h4 => rfl


/-- Witness for c3_call_return: an 8-byte machine with `2NNN` (nnn = 4) at
PC 0, `00EE` at 4, and SP = 2 runs the call and the return and ends with
PC = 2 and SP = 2. -/
theorem c3_call_return_witness :
    ∃ s1 s2 : Cpu,
      step ⟨[0x20, 0x04, 0, 0, 0x00, 0xEE, 0, 0], List.replicate 16 0, 0, 0, 0, 0, 2, Screen.new⟩
        none false 0 = some (Except.ok s1)
      ∧ step s1 none false 0 = some (Except.ok s2)
      ∧ s2.pc = 2
      ∧ s2.stack_ptr = 2 :=
  c3_call_return
    ⟨[0x20, 0x04, 0, 0, 0x00, 0xEE, 0, 0], List.replicate 16 0, 0, 0, 0, 0, 2, Screen.new⟩
    none none false false 0 0 4 0x20 0x04
    (by decide) (by decide) (by decide) (by decide) (by decide) (by decide)
    (by decide) (by decide) (by decide) (by decide) (by decide) (by decide)
    (by decide)


/-- C10: `Screen::clear` zeroes only the pixel buffer and leaves the
`pending_draw` flag at its prior value, while every `draw_sprite` call
sets `pending_draw` to `true` unconditionally on entry; consequently a
`00E0` instruction executed through `step` zeroes the buffer, keeps
`pending_draw` as it was, and advances `PC` by 2. -/
theorem c10_clear_pending (s : Screen) (x y : Nat) (sprite : List Nat)
    (c : Cpu) (k : Option Nat) (t : Bool) (r a b : Nat)
    (ha : c.memory.get? c.pc = some a)
    (hb : c.memory.get? (c.pc + 1) = some b)
    (hdec : decodeOp a b = Except.ok OpCode._00E0)
    (hpc : c.pc + 2 < 65536) :
    (s.clear).pending_draw = s.pending_draw
    ∧ (s.clear).buffer = List.replicate s.buffer.length 0
    ∧ ((s.draw_sprite x y sprite).2).pending_draw = true
    ∧ step c k t r = some (Except.ok
        { tickTimers c t with screen := c.screen.clear, pc := c.pc + 2 })
    ∧ c.screen.clear
        = { c.screen with buffer := List.replicate c.screen.buffer.length 0 } := by
  refine ⟨rfl, ?_, rfl, ?_, ?_⟩
  · simp only [Screen.clear]
    rw [List.map_const']
  · simp only [step]
    rw [tickTimers_memory, tickTimers_pc, rd_eq_pure ha, ebind_pure,
      rd_eq_pure hb, ebind_pure, hdec]
    simp only [execOp]
    rw [ebind_pure]
    dsimp only
    rw [if_pos rfl]
    rw [tickTimers_pc, Nat.mod_eq_of_lt hpc, tickTimers_screen, tickTimers_memory]
    rfl
  · simp only [Screen.clear]
    rw [List.map_const']

/-- Witness for c10_clear_pending: a fresh screen and a 2-byte machine
holding `00E0` at PC 0. -/
theorem c10_clear_pending_witness :
    (Screen.new.clear).pending_draw = Screen.new.pending_draw
    ∧ (Screen.new.clear).buffer = List.replicate Screen.new.buffer.length 0
    ∧ ((Screen.new.draw_sprite 1 2 [0xFF]).2).pending_draw = true
    ∧ step (⟨[0x00, 0xE0], List.replicate 16 0, 0, 0, 0, 0, 0xFFF, Screen.new⟩ : Cpu) none false 0 = some (Except.ok
        (⟨[0x00, 0xE0], List.replicate 16 0, 0, 0, 0, 2, 0xFFF,
          ⟨List.replicate 256 0, false⟩⟩ : Cpu))
    ∧ (⟨[0x00, 0xE0], List.replicate 16 0, 0, 0, 0, 0, 0xFFF, Screen.new⟩ : Cpu).screen.clear = (⟨List.replicate 256 0, false⟩ : Screen) :=
  c10_clear_pending Screen.new 1 2 [0xFF] (⟨[0x00, 0xE0], List.replicate 16 0, 0, 0, 0, 0, 0xFFF, Screen.new⟩ : Cpu)
    none false 0 0 0xE0 rfl rfl (by decide) (by decide)


/-! ### C4: invariants preserved by `step` -/

/-- Well-formedness of a CPU state: the lengths the spec claims together
with the value ranges the Rust field types (`u8` cells, `u16` registers)
enforce. -/
abbrev WfCpu (c : Cpu) : Prop :=
  c.memory.length = 4096 ∧ c.v.length = 16 ∧ c.pc < 65536 ∧ c.i < 65536 ∧
  c.timer < 256 ∧ (∀ x ∈ c.memory, x < 256) ∧ (∀ x ∈ c.v, x < 256)

theorem exec_dest {α : Type} (m : Exec α) :
    m = none ∨ (∃ e, m = some (Except.error e)) ∨ ∃ a, m = some (Except.ok a) :=
  match m with
  | none => Or.inl rfl
  | some (Except.error e) => Or.inr (Or.inl ⟨e, rfl⟩)
  | some (Except.ok a) => Or.inr (Or.inr ⟨a, rfl⟩)

theorem pure_ok {α : Type} {a b : α} (h : (pure a : Exec α) = some (Except.ok b)) :
    b = a :=
  (Except.ok.inj (Option.some.inj h)).symm

theorem efail_ok {α : Type} {e : Chip8Error} {b : α}
    (h : (efail e : Exec α) = some (Except.ok b)) : False :=
  Except.noConfusion (Option.some.inj h)

theorem epanic_ok {α : Type} {b : α} (h : (epanic : Exec α) = some (Except.ok b)) :
    False :=
  Option.noConfusion h

theorem ebind_ok {α β : Type} {m : Exec α} {f : α → Exec β} {b : β}
    (h : m >>= f = some (Except.ok b)) :
    ∃ a, m = some (Except.ok a) ∧ f a = some (Except.ok b) := by
  rcases exec_dest m with hm | ⟨e, hm⟩ | ⟨a, hm⟩ <;> rw [hm] at h
  · exact Option.noConfusion h
  · exact Except.noConfusion (Option.some.inj h)
  · exact ⟨a, hm, h⟩

theorem rd_ok {l : List Nat} {i v : Nat} (h : rd l i = some (Except.ok v)) :
    l.get? i = some v := by
  unfold rd at h
  cases hg : l.get? i with
  | none => rw [hg] at h; exact (epanic_ok h).elim
  | some w => rw [hg] at h; rw [pure_ok h]


theorem wr_ok {l : List Nat} {i v : Nat} {out : List Nat}
    (h : wr l i v = some (Except.ok out)) : i < l.length ∧ out = l.set i v := by
  unfold wr at h
  split at h
  · exact ⟨by assumption, pure_ok h⟩
  · exact (epanic_ok h).elim

theorem bound_set {l : List Nat} {i v : Nat} (hl : ∀ x ∈ l, x < 256)
    (hv : v < 256) : ∀ x ∈ l.set i v, x < 256 := fun x hx =>
  (List.mem_or_eq_of_mem_set hx).elim (hl x) (fun e => e ▸ hv)

theorem or_lt_65536 {a b : Nat} (ha : a < 65536) (hb : b < 65536) :
    a ||| b < 65536 :=
  Nat.bitwise_lt (f := or) (n := 16) ha hb

theorem or_lt_256 {a b : Nat} (ha : a < 256) (hb : b < 256) : a ||| b < 256 :=
  Nat.bitwise_lt (f := or) (n := 8) ha hb

theorem xor_lt_256 {a b : Nat} (ha : a < 256) (hb : b < 256) : a ^^^ b < 256 :=
  Nat.bitwise_lt (f := bne) (n := 8) ha hb

theorem shiftRight_lt_256 {a : Nat} (n : Nat) (h : a < 256) : a >>> n < 256 := by
  rw [Nat.shiftRight_eq_div_pow]
  exact Nat.lt_of_le_of_lt (Nat.div_le_self _ _) h

/-- The `FX55`/`FX65` register/memory copy loop: a `foldlM` whose body
reads a byte-bounded source and writes it into the accumulator preserves
the accumulator's length and byte bound. -/
theorem foldlM_rdwr_wf (src : List Nat) (hsrc : ∀ x ∈ src, x < 256)
    (f g : Nat → Nat) :
    ∀ (l : List Nat) (m0 m : List Nat),
      (∀ x ∈ m0, x < 256) →
      (List.foldlM (fun m reg => (do
          let vr ← rd src (f reg)
          wr m (g reg) vr : Exec (List Nat))) m0 l : Exec (List Nat))
        = some (Except.ok m) →
      m.length = m0.length ∧ ∀ x ∈ m, x < 256 := by
  intro l
  induction l with
  | nil =>
    intro m0 m hb h
    rw [List.foldlM_nil] at h
    rw [pure_ok h]
    exact ⟨rfl, hb⟩
  | cons a t ih =>
    intro m0 m hb h
    rw [List.foldlM_cons] at h
    obtain ⟨m1, hstep1, h2⟩ := ebind_ok h
    obtain ⟨vr, hrd, hwr⟩ := ebind_ok hstep1
    obtain ⟨hlt, hm1⟩ := wr_ok hwr
    subst hm1
    obtain ⟨hlen, hbnd⟩ :=
      ih _ m (bound_set hb (hsrc vr (List.get?_mem (rd_ok hrd)))) h2
    exact ⟨by rw [hlen, List.length_set], hbnd⟩



/-- Every successful `execOp` dispatch preserves well-formedness of the
state. -/
theorem execOp_wf (c : Cpu) (op : OpCode) (key : Option Nat) (rnd : Nat)
    (res : Cpu × Bool) (hwf : WfCpu c) (hv : validOp op)
    (hkey : ∀ k, key = some k → k < 256)
    (hexec : execOp c op key rnd = some (Except.ok res)) :
    WfCpu res.1 := by
  obtain ⟨h1, h2, h3, h4, h5, h6, h7⟩ := hwf
  cases op with
  | _0NNN nnn =>
    simp only [execOp] at hexec
    exact (efail_ok hexec).elim
  | _00E0 =>
    simp only [execOp] at hexec
    rw [pure_ok hexec]
    exact ⟨h1, h2, h3, h4, h5, h6, h7⟩
  | _00EE =>
    simp only [execOp] at hexec
    obtain ⟨hi, hhi, hexec⟩ := ebind_ok hexec
    obtain ⟨lo, hlo, hexec⟩ := ebind_ok hexec
    split at hexec
    · exact (efail_ok hexec).elim
    · rw [pure_ok hexec]
      refine ⟨h1, h2, ?_, h4, h5, h6, h7⟩
      exact or_lt_65536 (Nat.mod_lt _ (by norm_num))
        (Nat.lt_trans (h6 lo (List.get?_mem (rd_ok hlo))) (by norm_num))
  | _1NNN nnn =>
    simp only [execOp] at hexec
    rw [pure_ok hexec]
    simp only [validOp] at hv
    exact ⟨h1, h2, by dsimp only; omega, h4, h5, h6, h7⟩
  | _2NNN nnn =>
    simp only [execOp] at hexec
    obtain ⟨m1, hw1, hexec⟩ := ebind_ok hexec
    obtain ⟨m2, hw2, hexec⟩ := ebind_ok hexec
    obtain ⟨hl1, he1⟩ := wr_ok hw1
    subst he1
    obtain ⟨hl2, he2⟩ := wr_ok hw2
    subst he2
    rw [pure_ok hexec]
    simp only [validOp] at hv
    refine ⟨?_, h2, by dsimp only; omega, h4, h5, ?_, h7⟩
    · simp only [List.length_set]
      exact h1
    · exact bound_set (bound_set h6 (Nat.mod_lt _ (by norm_num)))
        (Nat.mod_lt _ (by norm_num))
  | _3XNN x nn =>
    simp only [execOp] at hexec
    obtain ⟨r0, hr0, hexec⟩ := ebind_ok hexec
    split at hexec
    · rw [pure_ok hexec]
      exact ⟨h1, h2, Nat.mod_lt _ (by norm_num), h4, h5, h6, h7⟩
    · rw [pure_ok hexec]
      exact ⟨h1, h2, h3, h4, h5, h6, h7⟩
  | _4XNN x nn =>
    simp only [execOp] at hexec
    obtain ⟨r0, hr0, hexec⟩ := ebind_ok hexec
    split at hexec
    · rw [pure_ok hexec]
      exact ⟨h1, h2, Nat.mod_lt _ (by norm_num), h4, h5, h6, h7⟩
    · rw [pure_ok hexec]
      exact ⟨h1, h2, h3, h4, h5, h6, h7⟩
  | _5XY0 x y =>
    simp only [execOp] at hexec
    obtain ⟨r0, hr0, hexec⟩ := ebind_ok hexec
    obtain ⟨r1, hr1, hexec⟩ := ebind_ok hexec
    split at hexec
    · rw [pure_ok hexec]
      exact ⟨h1, h2, Nat.mod_lt _ (by norm_num), h4, h5, h6, h7⟩
    · rw [pure_ok hexec]
      exact ⟨h1, h2, h3, h4, h5, h6, h7⟩
  | _6XNN x nn =>
    simp only [execOp] at hexec
    obtain ⟨v1, hw1, hexec⟩ := ebind_ok hexec
    obtain ⟨hl1, he1⟩ := wr_ok hw1
    subst he1
    rw [pure_ok hexec]
    simp only [validOp] at hv
    refine ⟨h1, ?_, h3, h4, h5, h6, ?_⟩
    · simp only [List.length_set]
      exact h2
    · exact bound_set h7 (by omega)
  | _7XNN x nn =>
    simp only [execOp] at hexec
    obtain ⟨xval, hx, hexec⟩ := ebind_ok hexec
    obtain ⟨v1, hw1, hexec⟩ := ebind_ok hexec
    obtain ⟨hl1, he1⟩ := wr_ok hw1
    subst he1
    rw [pure_ok hexec]
    refine ⟨h1, ?_, h3, h4, h5, h6, ?_⟩
    · simp only [List.length_set]
      exact h2
    · exact bound_set h7 (Nat.mod_lt _ (by norm_num))
  | _8XY0 x y =>
    simp only [execOp] at hexec
    obtain ⟨val, hy, hexec⟩ := ebind_ok hexec
    obtain ⟨v1, hw1, hexec⟩ := ebind_ok hexec
    obtain ⟨hl1, he1⟩ := wr_ok hw1
    subst he1
    rw [pure_ok hexec]
    refine ⟨h1, ?_, h3, h4, h5, h6, ?_⟩
    · simp only [List.length_set]
      exact h2
    · exact bound_set h7 (h7 val (List.get?_mem (rd_ok hy)))
  | _8XY1 x y =>
    simp only [execOp] at hexec
    obtain ⟨xval, hx, hexec⟩ := ebind_ok hexec
    obtain ⟨yval, hy, hexec⟩ := ebind_ok hexec
    obtain ⟨v1, hw1, hexec⟩ := ebind_ok hexec
    obtain ⟨v2, hw2, hexec⟩ := ebind_ok hexec
    obtain ⟨hl1, he1⟩ := wr_ok hw1
    subst he1
    obtain ⟨hl2, he2⟩ := wr_ok hw2
    subst he2
    rw [pure_ok hexec]
    have hxb : xval < 256 := h7 xval (List.get?_mem (rd_ok hx))
    have hyb : yval < 256 := h7 yval (List.get?_mem (rd_ok hy))
    refine ⟨h1, ?_, h3, h4, h5, h6, ?_⟩
    · simp only [List.length_set]
      exact h2
    · exact bound_set (bound_set h7 (or_lt_256 hxb hyb)) (by omega)
  | _8XY2 x y =>
    simp only [execOp] at hexec
    obtain ⟨xval, hx, hexec⟩ := ebind_ok hexec
    obtain ⟨yval, hy, hexec⟩ := ebind_ok hexec
    obtain ⟨v1, hw1, hexec⟩ := ebind_ok hexec
    obtain ⟨v2, hw2, hexec⟩ := ebind_ok hexec
    obtain ⟨hl1, he1⟩ := wr_ok hw1
    subst he1
    obtain ⟨hl2, he2⟩ := wr_ok hw2
    subst he2
    rw [pure_ok hexec]
    have hxb : xval < 256 := h7 xval (List.get?_mem (rd_ok hx))
    refine ⟨h1, ?_, h3, h4, h5, h6, ?_⟩
    · simp only [List.length_set]
      exact h2
    · exact bound_set (bound_set h7 (Nat.lt_of_le_of_lt Nat.and_le_left hxb)) (by omega)
  | _8XY3 x y =>
    simp only [execOp] at hexec
    obtain ⟨xval, hx, hexec⟩ := ebind_ok hexec
    obtain ⟨yval, hy, hexec⟩ := ebind_ok hexec
    obtain ⟨v1, hw1, hexec⟩ := ebind_ok hexec
    obtain ⟨v2, hw2, hexec⟩ := ebind_ok hexec
    obtain ⟨hl1, he1⟩ := wr_ok hw1
    subst he1
    obtain ⟨hl2, he2⟩ := wr_ok hw2
    subst he2
    rw [pure_ok hexec]
    have hxb : xval < 256 := h7 xval (List.get?_mem (rd_ok hx))
    have hyb : yval < 256 := h7 yval (List.get?_mem (rd_ok hy))
    refine ⟨h1, ?_, h3, h4, h5, h6, ?_⟩
    · simp only [List.length_set]
      exact h2
    · exact bound_set (bound_set h7 (xor_lt_256 hxb hyb)) (by omega)
  | _8XY4 x y =>
    simp only [execOp] at hexec
    obtain ⟨xval, hx, hexec⟩ := ebind_ok hexec
    obtain ⟨yval, hy, hexec⟩ := ebind_ok hexec
    obtain ⟨v1, hw1, hexec⟩ := ebind_ok hexec
    obtain ⟨v2, hw2, hexec⟩ := ebind_ok hexec
    obtain ⟨hl1, he1⟩ := wr_ok hw1
    subst he1
    obtain ⟨hl2, he2⟩ := wr_ok hw2
    subst he2
    rw [pure_ok hexec]
    have hA : (xval + yval) &&& 0x100 ≤ 0x100 := Nat.and_le_right
    refine ⟨h1, ?_, h3, h4, h5, h6, ?_⟩
    · simp only [List.length_set]
      exact h2
    · exact bound_set (bound_set h7 (Nat.mod_lt _ (by norm_num))) (by rw [shiftRight8]; omega)
  | _8XY5 x y =>
    simp only [execOp] at hexec
    obtain ⟨xval, hx, hexec⟩ := ebind_ok hexec
    obtain ⟨yval, hy, hexec⟩ := ebind_ok hexec
    obtain ⟨v1, hw1, hexec⟩ := ebind_ok hexec
    obtain ⟨v2, hw2, hexec⟩ := ebind_ok hexec
    obtain ⟨hl1, he1⟩ := wr_ok hw1
    subst he1
    obtain ⟨hl2, he2⟩ := wr_ok hw2
    subst he2
    rw [pure_ok hexec]
    refine ⟨h1, ?_, h3, h4, h5, h6, ?_⟩
    · simp only [List.length_set]
      exact h2
    · exact bound_set (bound_set h7 (Nat.mod_lt _ (by norm_num))) (by split <;> omega)
  | _8XY6 x y =>
    simp only [execOp] at hexec
    obtain ⟨yval, hy, hexec⟩ := ebind_ok hexec
    obtain ⟨v1, hw1, hexec⟩ := ebind_ok hexec
    obtain ⟨v2, hw2, hexec⟩ := ebind_ok hexec
    obtain ⟨hl1, he1⟩ := wr_ok hw1
    subst he1
    obtain ⟨hl2, he2⟩ := wr_ok hw2
    subst he2
    rw [pure_ok hexec]
    have hyb : yval < 256 := h7 yval (List.get?_mem (rd_ok hy))
    refine ⟨h1, ?_, h3, h4, h5, h6, ?_⟩
    · simp only [List.length_set]
      exact h2
    · exact bound_set (bound_set h7 (shiftRight_lt_256 1 hyb)) (Nat.lt_of_le_of_lt Nat.and_le_right (by norm_num))
  | _8XY7 x y =>
    simp only [execOp] at hexec
    obtain ⟨xval, hx, hexec⟩ := ebind_ok hexec
    obtain ⟨yval, hy, hexec⟩ := ebind_ok hexec
    obtain ⟨v1, hw1, hexec⟩ := ebind_ok hexec
    obtain ⟨v2, hw2, hexec⟩ := ebind_ok hexec
    obtain ⟨hl1, he1⟩ := wr_ok hw1
    subst he1
    obtain ⟨hl2, he2⟩ := wr_ok hw2
    subst he2
    rw [pure_ok hexec]
    refine ⟨h1, ?_, h3, h4, h5, h6, ?_⟩
    · simp only [List.length_set]
      exact h2
    · exact bound_set (bound_set h7 (Nat.mod_lt _ (by norm_num))) (by split <;> omega)
  | _8XYE x y =>
    simp only [execOp] at hexec
    obtain ⟨yval, hy, hexec⟩ := ebind_ok hexec
    obtain ⟨v1, hw1, hexec⟩ := ebind_ok hexec
    obtain ⟨v2, hw2, hexec⟩ := ebind_ok hexec
    obtain ⟨hl1, he1⟩ := wr_ok hw1
    subst he1
    obtain ⟨hl2, he2⟩ := wr_ok hw2
    subst he2
    rw [pure_ok hexec]
    have hyb : yval < 256 := h7 yval (List.get?_mem (rd_ok hy))
    refine ⟨h1, ?_, h3, h4, h5, h6, ?_⟩
    · simp only [List.length_set]
      exact h2
    · exact bound_set (bound_set h7 (Nat.mod_lt _ (by norm_num))) (shiftRight_lt_256 7 hyb)
  | _9XY0 x y =>
    simp only [execOp] at hexec
    obtain ⟨r0, hr0, hexec⟩ := ebind_ok hexec
    obtain ⟨r1, hr1, hexec⟩ := ebind_ok hexec
    split at hexec
    · rw [pure_ok hexec]
      exact ⟨h1, h2, Nat.mod_lt _ (by norm_num), h4, h5, h6, h7⟩
    · rw [pure_ok hexec]
      exact ⟨h1, h2, h3, h4, h5, h6, h7⟩
  | _ANNN nnn =>
    simp only [execOp] at hexec
    rw [pure_ok hexec]
    simp only [validOp] at hv
    exact ⟨h1, h2, h3, by dsimp only; omega, h5, h6, h7⟩
  | _BNNN nnn =>
    simp only [execOp] at hexec
    obtain ⟨v0, hv0, hexec⟩ := ebind_ok hexec
    rw [pure_ok hexec]
    exact ⟨h1, h2, Nat.mod_lt _ (by norm_num), h4, h5, h6, h7⟩
  | _CXNN x nn =>
    simp only [execOp] at hexec
    obtain ⟨v1, hw1, hexec⟩ := ebind_ok hexec
    obtain ⟨hl1, he1⟩ := wr_ok hw1
    subst he1
    rw [pure_ok hexec]
    simp only [validOp] at hv
    refine ⟨h1, ?_, h3, h4, h5, h6, ?_⟩
    · simp only [List.length_set]
      exact h2
    · exact bound_set h7 (Nat.lt_of_le_of_lt Nat.and_le_right hv.2)
  | _DXYN x y n =>
    simp only [execOp] at hexec
    split at hexec
    · obtain ⟨vx, hvx, hexec⟩ := ebind_ok hexec
      obtain ⟨vy, hvy, hexec⟩ := ebind_ok hexec
      obtain ⟨v1, hw1, hexec⟩ := ebind_ok hexec
      obtain ⟨hl1, he1⟩ := wr_ok hw1
      subst he1
      rw [pure_ok hexec]
      refine ⟨h1, ?_, h3, h4, h5, h6, ?_⟩
      · simp only [List.length_set]
        exact h2
      · exact bound_set h7 (by split <;> omega)
    · exact (epanic_ok hexec).elim
  | _EX9E x =>
    simp only [execOp] at hexec
    obtain ⟨r0, hr0, hexec⟩ := ebind_ok hexec
    split at hexec
    · rw [pure_ok hexec]
      exact ⟨h1, h2, Nat.mod_lt _ (by norm_num), h4, h5, h6, h7⟩
    · rw [pure_ok hexec]
      exact ⟨h1, h2, h3, h4, h5, h6, h7⟩
  | _EXA1 x =>
    simp only [execOp] at hexec
    obtain ⟨r0, hr0, hexec⟩ := ebind_ok hexec
    split at hexec
    · rw [pure_ok hexec]
      exact ⟨h1, h2, Nat.mod_lt _ (by norm_num), h4, h5, h6, h7⟩
    · rw [pure_ok hexec]
      exact ⟨h1, h2, h3, h4, h5, h6, h7⟩
  | _FX07 x =>
    simp only [execOp] at hexec
    obtain ⟨v1, hw1, hexec⟩ := ebind_ok hexec
    obtain ⟨hl1, he1⟩ := wr_ok hw1
    subst he1
    rw [pure_ok hexec]
    refine ⟨h1, ?_, h3, h4, h5, h6, ?_⟩
    · simp only [List.length_set]
      exact h2
    · exact bound_set h7 h5
  | _FX0A x =>
    cases key with
    | some k =>
      simp only [execOp] at hexec
      obtain ⟨v1, hw1, hexec⟩ := ebind_ok hexec
      obtain ⟨hl1, he1⟩ := wr_ok hw1
      subst he1
      rw [pure_ok hexec]
      refine ⟨h1, ?_, h3, h4, h5, h6, ?_⟩
      · simp only [List.length_set]
        exact h2
      · exact bound_set h7 (hkey k rfl)
    | none =>
      simp only [execOp] at hexec
      rw [pure_ok hexec]
      exact ⟨h1, h2, h3, h4, h5, h6, h7⟩
  | _FX15 x =>
    simp only [execOp] at hexec
    obtain ⟨vx, hvx, hexec⟩ := ebind_ok hexec
    rw [pure_ok hexec]
    exact ⟨h1, h2, h3, h4, h7 vx (List.get?_mem (rd_ok hvx)), h6, h7⟩
  | _FX18 x =>
    simp only [execOp] at hexec
    obtain ⟨vx, hvx, hexec⟩ := ebind_ok hexec
    rw [pure_ok hexec]
    exact ⟨h1, h2, h3, h4, h5, h6, h7⟩
  | _FX1E x =>
    simp only [execOp] at hexec
    obtain ⟨vx, hvx, hexec⟩ := ebind_ok hexec
    rw [pure_ok hexec]
    exact ⟨h1, h2, h3, Nat.mod_lt _ (by norm_num), h5, h6, h7⟩
  | _FX29 x =>
    simp only [execOp] at hexec
    obtain ⟨vx, hvx, hexec⟩ := ebind_ok hexec
    rw [pure_ok hexec]
    exact ⟨h1, h2, h3, by simp only [FONT_START_ADDR]; omega, h5, h6, h7⟩
  | _FX33 x =>
    simp only [execOp] at hexec
    obtain ⟨val, hval, hexec⟩ := ebind_ok hexec
    obtain ⟨m1, hw1, hexec⟩ := ebind_ok hexec
    obtain ⟨m2, hw2, hexec⟩ := ebind_ok hexec
    obtain ⟨m3, hw3, hexec⟩ := ebind_ok hexec
    obtain ⟨hl1, he1⟩ := wr_ok hw1
    subst he1
    obtain ⟨hl2, he2⟩ := wr_ok hw2
    subst he2
    obtain ⟨hl3, he3⟩ := wr_ok hw3
    subst he3
    rw [pure_ok hexec]
    have hvb : val < 256 := h7 val (List.get?_mem (rd_ok hval))
    refine ⟨?_, h2, h3, h4, h5, ?_, h7⟩
    · simp only [List.length_set]
      exact h1
    · exact bound_set (bound_set (bound_set h6 (by omega)) (by omega)) (by omega)
  | _FX55 x =>
    simp only [execOp] at hexec
    obtain ⟨m, hfold, hexec⟩ := ebind_ok hexec
    rw [pure_ok hexec]
    obtain ⟨hlen, hbnd⟩ := foldlM_rdwr_wf c.v h7 (fun r => r)
      (fun r => (c.i + r) % 65536) (List.range (x + 1)) c.memory m h6 hfold
    refine ⟨?_, h2, h3, Nat.mod_lt _ (by norm_num), h5, hbnd, h7⟩
    · rw [hlen]
      exact h1
  | _FX65 x =>
    simp only [execOp] at hexec
    obtain ⟨vv, hfold, hexec⟩ := ebind_ok hexec
    rw [pure_ok hexec]
    obtain ⟨hlen, hbnd⟩ := foldlM_rdwr_wf c.memory h6
      (fun r => (c.i + r) % 65536) (fun r => r) (List.range (x + 1)) c.v vv h7 hfold
    refine ⟨h1, ?_, h3, Nat.mod_lt _ (by norm_num), h5, h6, hbnd⟩
    · rw [hlen]
      exact h2


theorem post_wf (res : Cpu × Bool) (c' : Cpu)
    (hpost : (if res.2 = true then
        (pure { res.1 with pc := (res.1.pc + 2) % 65536 } : Exec Cpu)
      else pure res.1) = some (Except.ok c'))
    (h : WfCpu res.1) : WfCpu c' := by
  obtain ⟨h1, h2, h3, h4, h5, h6, h7⟩ := h
  split at hpost
  · rw [pure_ok hpost]
    exact ⟨h1, h2, Nat.mod_lt _ (by norm_num), h4, h5, h6, h7⟩
  · rw [pure_ok hpost]
    exact ⟨h1, h2, h3, h4, h5, h6, h7⟩

theorem tickTimers_wf (c : Cpu) (t : Bool) (h : WfCpu c) :
    WfCpu (tickTimers c t) := by
  obtain ⟨h1, h2, h3, h4, h5, h6, h7⟩ := h
  unfold tickTimers
  split
  · exact ⟨h1, h2, h3, h4, by dsimp only; split <;> omega, h6, h7⟩
  · exact ⟨h1, h2, h3, h4, h5, h6, h7⟩

/-- C4 amended: for every well-formed CPU state (lengths as claimed and
the `u8`/`u16` value ranges the Rust types enforce) and every key report
in `u8` range, a successful `step` preserves `|V| = 16` and
`|memory| = 4096`, and keeps `PC < 0x10000` (the `u16` range) — but not
`PC < 0x1000`, which `BNNN` violates (`c4_invariants_cex`). -/
theorem c4_invariants_amended (c c' : Cpu) (key : Option Nat) (tick : Bool)
    (rnd : Nat) (hwf : WfCpu c) (hkey : ∀ k, key = some k → k < 256)
    (hstep : step c key tick rnd = some (Except.ok c')) :
    c'.v.length = 16 ∧ c'.memory.length = 4096 ∧ c'.pc < 65536 ∧ WfCpu c' := by
  have hwf1 : WfCpu (tickTimers c tick) := tickTimers_wf c tick hwf
  simp only [step] at hstep
  obtain ⟨op1, hop1, hstep⟩ := ebind_ok hstep
  obtain ⟨op2, hop2, hstep⟩ := ebind_ok hstep
  have hb2 : op2 < 256 :=
    hwf1.2.2.2.2.2.1 op2 (List.get?_mem (rd_ok hop2))
  split at hstep
  · exact (efail_ok hstep).elim
  · rename_i opcode hdec
    obtain ⟨res, hexec, hpost⟩ := ebind_ok hstep
    have hres : WfCpu res.1 :=
      execOp_wf _ opcode key rnd res hwf1
        (decodeOp_valid op1 op2 hb2 opcode hdec) hkey hexec
    have hc' := post_wf res c' hpost hres
    exact ⟨hc'.2.1, hc'.1, hc'.2.2.1, hc'⟩


/-- Witness for c4_invariants_amended: a well-formed machine whose
memory is 4096 copies of 0x6A executes `6A6A` (`V10 := 0x6A`) and keeps
the invariants. -/
theorem c4_invariants_amended_witness :
    ((⟨List.replicate 4096 0x6A, (List.replicate 16 0).set 10 0x6A,
        0, 0, 0, 2, 0xFFF, Screen.new⟩ : Cpu)).v.length = 16
    ∧ ((⟨List.replicate 4096 0x6A, (List.replicate 16 0).set 10 0x6A,
        0, 0, 0, 2, 0xFFF, Screen.new⟩ : Cpu)).memory.length = 4096
    ∧ ((⟨List.replicate 4096 0x6A, (List.replicate 16 0).set 10 0x6A,
        0, 0, 0, 2, 0xFFF, Screen.new⟩ : Cpu)).pc < 65536
    ∧ WfCpu (⟨List.replicate 4096 0x6A, (List.replicate 16 0).set 10 0x6A,
        0, 0, 0, 2, 0xFFF, Screen.new⟩ : Cpu) :=
  c4_invariants_amended
    ⟨List.replicate 4096 0x6A, List.replicate 16 0, 0, 0, 0, 0, 0xFFF, Screen.new⟩
    ⟨List.replicate 4096 0x6A, (List.replicate 16 0).set 10 0x6A,
        0, 0, 0, 2, 0xFFF, Screen.new⟩
    none false 0
    (by
      refine ⟨by rw [List.length_replicate], by rw [List.length_replicate],
        by norm_num, by norm_num, by norm_num, ?_, ?_⟩
      · intro z hz
        rw [List.eq_of_mem_replicate hz]
        norm_num
      · intro z hz
        rw [List.eq_of_mem_replicate hz]
        norm_num)
    (fun k h => Option.noConfusion h)
    (by
      have hg0 : (List.replicate 4096 (0x6A : Nat)).get? 0 = some 0x6A := by
        rw [List.get?_eq_getElem?, List.getElem?_replicate, if_pos (by norm_num)]
      have hg1 : (List.replicate 4096 (0x6A : Nat)).get? 1 = some 0x6A := by
        rw [List.get?_eq_getElem?, List.getElem?_replicate, if_pos (by norm_num)]
      simp only [step]
      rw [tickTimers_false]
      rw [rd_eq_pure hg0, ebind_pure, rd_eq_pure hg1, ebind_pure]
      rw [show decodeOp 0x6A 0x6A = Except.ok (OpCode._6XNN 10 0x6A) from by decide]
      simp only [execOp]
      rw [wr_eq_pure _ (by rw [List.length_replicate]; norm_num), ebind_pure]
      rw [ebind_pure]
      rfl)


/-! ### C9: the assembler lexer (src/assembler/src/lexer.rs) -/

/-- `enum Token` from `src/assembler/src/lexer.rs` (strings as character
lists). -/
inductive Token
  | Number (text : List Char)
  | Mneumonic (text : List Char)
  | Label (text : List Char)
  | Comment (text : List Char)
  | Whitespace (c : Char)
  | Unknown (c : Char)
  deriving DecidableEq, Repr

/-- `struct Lexer`: the remaining character iterator and the
`pending_lex` pushback deque (front at the head). -/
structure Lexer where
  tokens : List Char
  pending_lex : List Char
  deriving DecidableEq, Repr

/-- `VecDeque::push_front`. -/
def pushFront (c : Char) (s : Lexer) : Lexer :=
  { s with pending_lex := c :: s.pending_lex }

/-- `Lexer::next_char`: pop the pushback deque first, else the
iterator. -/
def next_char (s : Lexer) : Option Char × Lexer :=
  match s.pending_lex with
  | [] =>
    match s.tokens with
    | [] => (none, s)
    | c :: rest => (some c, { s with tokens := rest })
  | c :: rest => (some c, { s with pending_lex := rest })

/-- Modelled from the spec: `MAX_MNEMONIC_LEN` (the source's
`MAX_OPCODE_LEN` constant lives in the absent
`crate::constants::mneumonics` module); the longest mnemonic, `5`. -/
def MAX_OPCODE_LEN : Nat := 5

/-- Modelled from the spec: the case-insensitive mnemonic set of §4.4,
sorted longest-prefix-first as the spec requires (`LOADS` before
`LOAD`); the source constant lives in the absent
`crate::constants::mneumonics` module. -/
def SORTED_MNEUMONICS : List (List Char) :=
  ["SKRNE".toList, "LOADI".toList, "JUMPI".toList, "MOVED".toList,
   "LOADD".toList, "LOADS".toList, "LDSPR".toList,
   "JUMP".toList, "CALL".toList, "SKNE".toList, "SKRE".toList,
   "LOAD".toList, "MOVE".toList, "ADDR".toList, "SKPR".toList,
   "SKUP".toList, "KEYD".toList, "ADDI".toList, "DRAW".toList,
   "RAND".toList, "STOR".toList, "READ".toList,
   "SYS".toList, "CLR".toList, "RTS".toList, "SKE".toList,
   "ADD".toList, "XOR".toList, "SUB".toList, "SHR".toList,
   "SHL".toList, "BCD".toList, "AND".toList, "OR".toList]

/-- `'a'..='z' | 'A'..='Z'` (the speculative-mnemonic continuation
class). -/
def isAsciiAlpha (c : Char) : Bool :=
  ('a' ≤ c && c ≤ 'z') || ('A' ≤ c && c ≤ 'Z')

/-- `'0'..='9' | 'a'..='f' | 'A'..='F' | 'x' | 'X'` (the number
continuation class). -/
def isNumChar (c : Char) : Bool :=
  ('0' ≤ c && c ≤ '9') || ('a' ≤ c && c ≤ 'f') || ('A' ≤ c && c ≤ 'F')
    || c = 'x' || c = 'X'

/-- `'a'..='z' | 'A'..='Z' | '0'..='9' | '_'` (the label continuation
class). -/
def isLabelChar (c : Char) : Bool :=
  isAsciiAlpha c || ('0' ≤ c && c ≤ '9') || c = '_'

/-- `char::to_ascii_uppercase`. -/
def toUpperChar (c : Char) : Char :=
  if 'a' ≤ c && c ≤ 'z' then Char.ofNat (c.toNat - 32) else c

/-- `str::starts_with`: `pfx` is a leading segment of `buf`. -/
def startsWithPfx : List Char → List Char → Bool
  | _, [] => true
  | [], _ :: _ => false
  | b :: bs, p :: ps => b = p && startsWithPfx bs ps

/-- The `for mneumonic in SORTED_MNEUMONICS` search: first match
wins. -/
def findMn : List (List Char) → List Char → Option (List Char)
  | [], _ => none
  | m :: ms, upper => if startsWithPfx upper m then some m else findMn ms upper

/-- A `for`/`loop` body that pushes each listed character to the front
of the pushback deque, in list order (so the last pushed ends up
first). -/
def pushFrontSeq : List Char → Lexer → Lexer
  | [], s => s
  | c :: cs, s => pushFrontSeq cs (pushFront c s)

/-- The `for _ in 1..MAX_OPCODE_LEN` speculative read of
`Lexer::lex_opcode`: up to `fuel` further alphabetic characters are
appended to the buffer; a non-alphabetic character is pushed back and
stops the read. -/
def readAlpha : Nat → List Char → Lexer → List Char × Lexer
  | 0, buf, s => (buf, s)
  | Nat.succ k, buf, s =>
    match next_char s with
    | (none, s1) => (buf, s1)
    | (some c, s1) =>
      if isAsciiAlpha c then readAlpha k (buf ++ [c]) s1
      else (buf, pushFront c s1)

/-- `Lexer::lex_opcode`, byte for byte from the source: on a mnemonic
prefix match, `leftover_chars = buffer.len() - mneumonic.len()` and the
loop `for i in 0..leftover_chars` pushes `buffer.chars().nth(i)` — the
FIRST `leftover_chars` characters of the buffer — to the front of the
deque; on no match, the loop `for i in (1..buffer.len()).rev()` pushes
the tail characters back in reverse index order. -/
def lex_opcode (c : Char) (s : Lexer) : Option Token × Lexer :=
  let r := readAlpha (MAX_OPCODE_LEN - 1) [c] s
  let buffer := r.1
  let upper := buffer.map toUpperChar
  match findMn SORTED_MNEUMONICS upper with
  | some m =>
    let leftover := buffer.length - m.length
    (some (Token.Mneumonic m), pushFrontSeq (buffer.take leftover) r.2)
  | none =>
    (none, pushFrontSeq (buffer.drop 1).reverse r.2)

/-- The total number of characters a lexing loop could still consume;
used as fuel for the source's unbounded `loop`s. -/
def lexFuel (s : Lexer) : Nat := s.tokens.length + s.pending_lex.length

/-- The `loop` of `Lexer::lex_number`. -/
def lex_number_go : Nat → List Char → Lexer → List Char × Lexer
  | 0, buf, s => (buf, s)
  | Nat.succ k, buf, s =>
    match next_char s with
    | (none, s1) => (buf, s1)
    | (some c, s1) =>
      if isNumChar c then lex_number_go k (buf ++ [c]) s1
      else (buf, pushFront c s1)

/-- `Lexer::lex_number`. -/
def lex_number (c : Char) (s : Lexer) : Token × Lexer :=
  let r := lex_number_go (lexFuel s) [c] s
  (Token.Number r.1, r.2)

/-- The `loop` of `Lexer::lex_label`. -/
def lex_label_go : Nat → List Char → Lexer → List Char × Lexer
  | 0, buf, s => (buf, s)
  | Nat.succ k, buf, s =>
    match next_char s with
    | (none, s1) => (buf, s1)
    | (some c, s1) =>
      if isLabelChar c then lex_label_go k (buf ++ [c]) s1
      else (buf, pushFront c s1)

/-- `Lexer::lex_label`. -/
def lex_label (c : Char) (s : Lexer) : Token × Lexer :=
  let r := lex_label_go (lexFuel s) [c] s
  (Token.Label r.1, r.2)

/-- The `loop` of `Lexer::lex_comment`: stop before a newline, pushing
it back. -/
def lex_comment_go : Nat → List Char → Lexer → List Char × Lexer
  | 0, buf, s => (buf, s)
  | Nat.succ k, buf, s =>
    match next_char s with
    | (none, s1) => (buf, s1)
    | (some c, s1) =>
      if c = (Char.ofNat 10) then (buf, pushFront c s1)
      else lex_comment_go k (buf ++ [c]) s1

/-- `Lexer::lex_comment`. -/
def lex_comment (c : Char) (s : Lexer) : Token × Lexer :=
  let r := lex_comment_go (lexFuel s) [c] s
  (Token.Comment r.1, r.2)

/-- `Lexer::lex_char`: classification of the leading character. -/
def lex_char (c : Char) (s : Lexer) : Token × Lexer :=
  if c = ' ' || c = (Char.ofNat 9) || c = (Char.ofNat 13) || c = (Char.ofNat 10) then
    (Token.Whitespace c, s)
  else if isAsciiAlpha c then
    match lex_opcode c s with
    | (some t, s1) => (t, s1)
    | (none, s1) =>
      if ('a' ≤ c && c ≤ 'f') || ('A' ≤ c && c ≤ 'F') then lex_number c s1
      else (Token.Unknown c, s1)
  else if '0' ≤ c && c ≤ '9' then lex_number c s
  else if c = ':' then lex_label c s
  else if c = ';' then lex_comment c s
  else (Token.Unknown c, s)

/-- `impl Iterator for Lexer`: `next`. -/
def Lexer.next (s : Lexer) : Option (Token × Lexer) :=
  match next_char s with
  | (none, _) => none
  | (some c, s1) => some (lex_char c s1)

/-- C9: the mnemonic pushback is wrong (code bug).  On input "LOADX"
the speculative buffer is "LOADX"; its uppercase form has the known
mnemonic "LOAD" as a proper prefix, with leftover text "X".  The lexer
emits `Mneumonic "LOAD"` as claimed, but the pushback loop
`for i in 0..leftover_chars \x7b push_front(buffer.chars().nth(i)) \x7d`
(lexer.rs lines 84–87) pushes the first `leftover_chars` characters of
the buffer — here 'L' — instead of the characters following the
mnemonic, so the next character consumed is 'L', the 'X' is lost, and
the stream continues `Unknown 'L'` instead of reaching 'X'. -/
theorem c9_lexer_pushback_bug :
    lex_opcode 'L' ⟨"OADX".toList, []⟩
      = (some (Token.Mneumonic "LOAD".toList), ⟨[], ['L']⟩)
    ∧ "LOADX".toList.drop "LOAD".toList.length = ['X']
    ∧ ('L' : Char) ≠ 'X'
    ∧ Lexer.next ⟨"LOADX".toList, []⟩
      = some (Token.Mneumonic "LOAD".toList, ⟨[], ['L']⟩)
    ∧ (Lexer.next ⟨[], ['L']⟩).map Prod.fst = some (Token.Unknown 'L') := by
  refine ⟨?_, ?_, ?_, ?_, ?_⟩ <;> decide

end Chip8
